import Mathlib

/-!
mini-webserver: a shallow embedding of `src/main.c`.

C strings are modelled as `List Char`, one `Char` per byte, holding the bytes
before the terminating NUL.  Calls to the operating system (`read`, `stat`,
`open`, `sendfile`, `time`) take their results from an explicit environment,
and every call that is observable from outside the process (`send`, `stat`,
`open`, `sendfile`, `close`, `epoll_ctl`, `free`) is recorded, in program
order, in a list of `Effect`s.  The program writes to the socket with flags 0
and leaves `SIGPIPE` at its default action, so a write to a connection that the
peer has reset terminates the process; the list then ends with `sigpipe`.
-/

namespace MiniWebserver

/-! ## Constants and C library functions -/

/-- The macro `BUFFER_SIZE`. -/
def BUFFER_SIZE : Nat := 8192

/-- The terminating byte of a C string. -/
def NUL : Char := Char.ofNat 0

/-- The C string stored in a memory region that is NUL-terminated at its end:
the bytes before the first NUL. -/
def cstr (mem : List Char) : List Char :=
  mem.takeWhile (fun c => c ≠ NUL)

/-- The function `isspace` of the C locale: space, `\t`, `\n`, `\v`, `\f`, `\r`. -/
def isspace (c : Char) : Bool :=
  c = ' ' || c = '\t' || c = '\n' || c = Char.ofNat 11 || c = Char.ofNat 12 || c = '\r'

/-- The function `strrchr(s, c)` for `c` other than NUL: the tail of `s` that
starts at the last occurrence of `c`, `none` for the null pointer. -/
def strrchr : List Char → Char → Option (List Char)
  | [], _ => none
  | x :: xs, c =>
    match strrchr xs c with
    | some r => some r
    | none => if x = c then some (x :: xs) else none

/-- The function `strstr(haystack, needle)`: the tail of `haystack` that starts
at the first occurrence of `needle`, `none` for the null pointer. -/
def strstr : List Char → List Char → Option (List Char)
  | [], needle => if needle = [] then some [] else none
  | h :: t, needle =>
    if needle.isPrefixOf (h :: t) then some (h :: t) else strstr t needle

/-- What `snprintf(dst, size, ...)` leaves in `dst` when the format expands to
`text`: at most `size - 1` bytes of it. -/
def snprintf (size : Nat) (text : List Char) : List Char :=
  text.take (size - 1)

/-- The conversion `%zu`: an unsigned value in decimal. -/
def fmt_zu (n : Nat) : List Char := Nat.toDigits 10 n

/-- The conversion `%lld`: a signed value in decimal. -/
def fmt_lld (v : Int) : List Char :=
  if v < 0 then '-' :: Nat.toDigits 10 v.natAbs else Nat.toDigits 10 v.natAbs

/-! ## `get_mime_type` -/

/-- The function `get_mime_type` (main.c, lines 32-43). -/
def get_mime_type (path : List Char) : List Char :=
  match strrchr path '.' with
  | none => "application/octet-stream".toList
  | some ext =>
    if ext = ".html".toList then "text/html".toList
    else if ext = ".css".toList then "text/css".toList
    else if ext = ".js".toList then "application/javascript".toList
    else if ext = ".png".toList then "image/png".toList
    else if ext = ".jpg".toList ∨ ext = ".jpeg".toList then "image/jpeg".toList
    else if ext = ".gif".toList then "image/gif".toList
    else if ext = ".txt".toList then "text/plain".toList
    else "application/octet-stream".toList

/-! ## `send_response` -/

/-- A call that the process makes and that is visible outside it, in program
order.  `read` and `store_nul` record the two buffer accesses of the read loop:
`read fd offset size count` is `read(fd, buffer + offset, size)` returning
`count`, and `store_nul index` is `buffer[index] = 0`.  `sigpipe` is the
termination of the process by the signal `SIGPIPE`. -/
inductive Effect
  | read (fd : Int) (offset size : Nat) (count : Int)
  | store_nul (index : Nat)
  | send (fd : Int) (bytes : List Char)
  | stat (path : List Char)
  | open_rdonly (path : List Char)
  | sendfile (out_fd in_fd : Int) (offset count ret : Int)
  | close (fd : Int)
  | epoll_del (fd : Int)
  | free_buffer
  | free_client
  | sigpipe
  deriving DecidableEq, Repr

/-- The fields of `struct stat` that the program reads: `S_ISDIR(st_mode)` and
`st_size` (an `off_t`). -/
structure Stat where
  is_dir : Bool
  st_size : Int
  deriving DecidableEq, Repr

/-- The results of the system calls made while one request is handled: `date`
is what `strftime` leaves in `date[128]`, `stat` and `open_rdonly` answer per
path (`none` for a return value of -1), `sendfile` lists the return values of
the successive `sendfile` calls (every call after the last listed one fails).
`sigpipe` tells whether the peer has reset the connection: `some k` when the
first `k` writes to the socket (`send` or `sendfile`) return and the next one
raises `SIGPIPE`, `none` when every write returns. -/
structure Env where
  date : List Char
  stat : List Char → Option Stat
  open_rdonly : List Char → Option Int
  sendfile : List Int
  sigpipe : Option Nat

/-- The text that the format of `send_response` (lines 53-60) expands to. -/
def send_response_format (status date content_type : List Char) (body_len : Nat) :
    List Char :=
  "HTTP/1.1 ".toList ++ status ++
  "\r\nServer: mini-webserver/0.1\r\nDate: ".toList ++ date ++
  "\r\nContent-Type: ".toList ++ content_type ++
  "\r\nContent-Length: ".toList ++ fmt_zu body_len ++
  "\r\nConnection: close\r\n\r\n".toList

/-- The header bytes that `send_response` builds in `header[BUFFER_SIZE]`
(lines 52-60). -/
def send_response_header (status date content_type : List Char) (body_len : Nat) :
    List Char :=
  snprintf BUFFER_SIZE (send_response_format status date content_type body_len)

/-- The bytes that `send(fd, body, body_len, 0)` takes from the string `body`:
the first `body_len` bytes of the text followed by its terminating NUL
(`body_len` is at most one more than the length of the text in every call). -/
def body_bytes (body : List Char) (body_len : Nat) : List Char :=
  (body ++ [NUL]).take body_len

/-- The function `send_response` (lines 45-66).  The header is formatted from C
strings and holds no NUL, so `strlen(header)` is its length. -/
def send_response (fd : Int) (date status content_type body : List Char)
    (body_len : Nat) : List Effect :=
  let header := send_response_header status date content_type body_len
  if body_len > 0 then
    [Effect.send fd header, Effect.send fd (body_bytes body body_len)]
  else
    [Effect.send fd header]

/-! ## `handle_request` -/

/-- The record `Client` (lines 24-30); `buffer` holds the bytes stored so far
in the block of `BUFFER_SIZE` bytes, which are those at the indices below `len`. -/
structure Client where
  fd : Int
  buffer : List Char
  len : Nat
  pos : Nat
  state : Nat
  deriving DecidableEq, Repr

/-- One conversion `%Ns` of `sscanf`: white space is skipped, then at most
`width` bytes that are not white space are taken.  `none` when the input ends
before a byte is taken; otherwise the token and the input left. -/
def scan_s (width : Nat) (input : List Char) : Option (List Char × List Char) :=
  match input.dropWhile isspace with
  | [] => none
  | c :: cs =>
    let tok := ((c :: cs).takeWhile (fun x => !isspace x)).take width
    some (tok, (c :: cs).drop tok.length)

/-- The outcome of the `sscanf` call: the return value and the three arrays
(an array that is not assigned is shown empty; the program does not read it). -/
structure Scanned where
  ret : Int
  method : List Char
  path : List Char
  protocol : List Char
  deriving DecidableEq, Repr

/-- The call `sscanf(client->buffer, "%15s %511s %15s", method, path, protocol)`
(line 70).  The blank of the format skips white space, as `%s` does itself.  The
return value is `EOF` (-1) when the input ends before the first conversion. -/
def sscanf_request (buffer : List Char) : Scanned :=
  match scan_s 15 (cstr buffer) with
  | none => { ret := -1, method := [], path := [], protocol := [] }
  | some (method, rest1) =>
    match scan_s 511 rest1 with
    | none => { ret := 1, method := method, path := [], protocol := [] }
    | some (path, rest2) =>
      match scan_s 15 rest2 with
      | none => { ret := 2, method := method, path := path, protocol := [] }
      | some (protocol, _) =>
        { ret := 3, method := method, path := path, protocol := protocol }

/-- The path that lines 83-88 build in `full_path[1024]`. -/
def resolve_path (root path : List Char) : List Char :=
  if path = "/".toList then snprintf 1024 (root ++ "/index.html".toList)
  else snprintf 1024 (root ++ path)

/-- The text that the format of the 200 path (lines 128-135) expands to. -/
def ok_format (date content_type : List Char) (st_size : Int) : List Char :=
  "HTTP/1.1 200 OK\r\nServer: mini-webserver/0.1\r\nDate: ".toList ++ date ++
  "\r\nContent-Type: ".toList ++ content_type ++
  "\r\nContent-Length: ".toList ++ fmt_lld st_size ++
  "\r\nConnection: close\r\n\r\n".toList

/-- The header bytes that the 200 path builds in `header[BUFFER_SIZE]`
(lines 127-135). -/
def ok_header (date content_type : List Char) (st_size : Int) : List Char :=
  snprintf BUFFER_SIZE (ok_format date content_type st_size)

/-- The loop of lines 140-144: `sendfile` is called with the bytes left until
the offset reaches `st_size` or a call returns a value that is not positive. -/
def sendfile_loop (out_fd in_fd : Int) (st_size : Int) : Int → List Int → List Effect
  | offset, [] =>
    if offset < st_size then
      [Effect.sendfile out_fd in_fd offset (st_size - offset) (-1)]
    else []
  | offset, sent :: rest =>
    if offset < st_size then
      Effect.sendfile out_fd in_fd offset (st_size - offset) sent ::
        (if sent ≤ 0 then [] else sendfile_loop out_fd in_fd st_size (offset + sent) rest)
    else []

/-- The function `handle_request` (lines 68-148): the calls it makes when each
of its writes to the socket returns, and the client record it leaves.  Where a
write raises `SIGPIPE` the calls end there, see `until_sigpipe`. -/
def handle_request (env : Env) (client : Client) (root : List Char) :
    List Effect × Client :=
  let sc := sscanf_request client.buffer
  if sc.ret ≠ 3 then
    (send_response client.fd env.date "400 Bad Request".toList "text/plain".toList
        "Bad Request".toList 11,
      { client with state := 2 })
  else if sc.method ≠ "GET".toList then
    (send_response client.fd env.date "405 Method Not Allowed".toList "text/plain".toList
        "Method Not Allowed".toList 19,
      { client with state := 2 })
  else
    let full_path := resolve_path root sc.path
    if (strstr full_path "../".toList).isSome then
      (send_response client.fd env.date "403 Forbidden".toList "text/plain".toList
          "Forbidden".toList 9,
        { client with state := 2 })
    else
      match env.stat full_path with
      | none =>
        let not_found := "<h1>404 Not Found</h1>".toList
        (Effect.stat full_path ::
          send_response client.fd env.date "404 Not Found".toList "text/html".toList
            not_found not_found.length,
          { client with state := 2 })
      | some st =>
        if st.is_dir then
          let dir_msg := "<h1>Directory listing not supported</h1>".toList
          (Effect.stat full_path ::
            send_response client.fd env.date "403 Forbidden".toList "text/html".toList
              dir_msg dir_msg.length,
            { client with state := 2 })
        else
          match env.open_rdonly full_path with
          | none =>
            let err := "<h1>500 Internal Server Error</h1>".toList
            (Effect.stat full_path :: Effect.open_rdonly full_path ::
              send_response client.fd env.date "500 Internal Server Error".toList
                "text/html".toList err err.length,
              { client with state := 2 })
          | some file_fd =>
            let content_type := get_mime_type full_path
            let header := ok_header env.date content_type st.st_size
            (Effect.stat full_path :: Effect.open_rdonly full_path ::
              Effect.send client.fd header ::
              (sendfile_loop client.fd file_fd st.st_size 0 env.sendfile ++
                [Effect.close file_fd]),
              { client with state := 2 })

/-! ## The connection branch of the event loop in `main` -/

/-- The flag `EPOLLIN`. -/
def EPOLLIN : Nat := 1

/-- The flag `EPOLLERR`. -/
def EPOLLERR : Nat := 8

/-- The flag `EPOLLHUP`. -/
def EPOLLHUP : Nat := 16

/-- The result of one `read` call on the client socket: bytes stored in the
buffer (the return value is their number, 0 at end of stream), or -1 with
`errno` equal to `EAGAIN`, or -1 with another `errno`. -/
inductive ReadResult
  | data (bytes : List Char)
  | eagain
  | error
  deriving DecidableEq, Repr

/-- The return value of a `read` call. -/
def ReadResult.count : ReadResult → Int
  | ReadResult.data bytes => (bytes.length : Int)
  | ReadResult.eagain => -1
  | ReadResult.error => -1

/-- The bytes that a `read` call stored. -/
def ReadResult.bytes : ReadResult → List Char
  | ReadResult.data bytes => bytes
  | ReadResult.eagain => []
  | ReadResult.error => []

/-- The record that lines 203-208 build for an accepted socket. -/
def accept_client (fd : Int) : Client :=
  { fd := fd, buffer := [], len := 0, pos := 0, state := 0 }

/-- The third argument of the `read` call, `BUFFER_SIZE - client->len - 1`,
computed in `size_t` (64 bits, wrapping). -/
def read_size (len : Nat) : Nat :=
  (((BUFFER_SIZE : Int) - (len : Int) - 1) % (2 ^ 64 : Int)).toNat

/-- A write to the client socket: `send` or `sendfile`. -/
def Effect.writes_socket : Effect → Bool
  | Effect.send _ _ => true
  | Effect.sendfile _ _ _ _ _ => true
  | _ => false

/-- The calls of a list that are made when the first `k` writes to the socket
return and the next one raises `SIGPIPE`: those up to that write, then the
termination of the process.  The flag tells whether the process was terminated. -/
def cut_at_write : Nat → List Effect → List Effect × Bool
  | _, [] => ([], false)
  | k, e :: rest =>
    if e.writes_socket then
      match k with
      | 0 => ([e, Effect.sigpipe], true)
      | k1 + 1 => ((e :: (cut_at_write k1 rest).1), (cut_at_write k1 rest).2)
    else ((e :: (cut_at_write k rest).1), (cut_at_write k rest).2)

/-- The calls of a list that are made under the `sigpipe` of the environment,
and whether the process was terminated. -/
def until_sigpipe : Option Nat → List Effect → List Effect × Bool
  | none, effects => (effects, false)
  | some k, effects => cut_at_write k effects

/-- The variables that the `while` loop of lines 219-228 leaves behind, and
whether the process was terminated by `SIGPIPE` inside the loop. -/
structure LoopExit where
  effects : List Effect
  client : Client
  done : Bool
  count : Int
  errno_eagain : Bool
  killed : Bool

/-- The `while` loop of lines 219-228, run on the results of the successive
`read` calls.  When no result is left the socket has nothing more to deliver
and the call fails with `EAGAIN`. -/
def read_loop (env : Env) (root : List Char) : Client → List ReadResult → LoopExit
  | client, [] =>
    { effects := [Effect.read client.fd client.len (read_size client.len) (-1)],
      client := client, done := false, count := -1, errno_eagain := true,
      killed := false }
  | client, r :: rest =>
    if r.count > 0 then
      let client1 : Client :=
        { client with buffer := client.buffer ++ r.bytes,
                      len := (client.len + r.count.toNat) % 2 ^ 64 }
      if (strstr (cstr client1.buffer) "\r\n\r\n".toList).isSome then
        let handled := handle_request env client1 root
        let made := until_sigpipe env.sigpipe handled.1
        { effects := Effect.read client.fd client.len (read_size client.len) r.count ::
            Effect.store_nul client1.len :: made.1,
          client := handled.2, done := true, count := r.count, errno_eagain := false,
          killed := made.2 }
      else
        let later := read_loop env root client1 rest
        { later with
          effects := Effect.read client.fd client.len (read_size client.len) r.count ::
            Effect.store_nul client1.len :: later.effects }
    else
      { effects := [Effect.read client.fd client.len (read_size client.len) r.count],
        client := client, done := false, count := r.count,
        errno_eagain := decide (r = ReadResult.eagain), killed := false }

/-- The calls of the teardown block (lines 235-238). -/
def teardown (client : Client) : List Effect :=
  [Effect.epoll_del client.fd, Effect.close client.fd, Effect.free_buffer,
    Effect.free_client]

/-- The `else` branch of lines 214-240: one readiness event with flags `events`
on the connection `client`, the `read` calls answered by `reads`.  The result is
the calls made and the client record, `none` once it is freed or the process is
terminated: after a write that raised `SIGPIPE` no further call is made. -/
def service_event (env : Env) (root : List Char) (client : Client) (events : Nat)
    (reads : List ReadResult) : List Effect × Option Client :=
  if events &&& EPOLLIN ≠ 0 then
    let lp := read_loop env root client reads
    if lp.killed then
      (lp.effects, none)
    else
      let done := lp.done || (lp.count == 0 || (lp.count == -1 && !lp.errno_eagain))
      if done ∨ events &&& (EPOLLERR ||| EPOLLHUP) ≠ 0 then
        (lp.effects ++ teardown lp.client, none)
      else
        (lp.effects, some lp.client)
  else
    if events &&& (EPOLLERR ||| EPOLLHUP) ≠ 0 then
      (teardown client, none)
    else
      ([], some client)

/-- The life of one connection: accepted as `client`, then served one readiness
event after the other (flags and `read` results of each) until it is freed or
the process is terminated. -/
def serve_events (env : Env) (root : List Char) :
    Client → List (Nat × List ReadResult) → List Effect × Option Client
  | client, [] => ([], some client)
  | client, (events, reads) :: rest =>
    match service_event env root client events reads with
    | (effects, none) => (effects, none)
    | (effects, some client1) =>
      let later := serve_events env root client1 rest
      (effects ++ later.1, later.2)

/-! ## Definitions of the specification -/

/-- The white-space-delimited tokens of a text: its maximal runs of bytes that
are not white space. -/
def tokens (s : List Char) : List (List Char) :=
  (s.splitOnP isspace).filter (fun t => decide (t ≠ []))

/-- The request line of a buffer: the bytes before the first CRLF. -/
def request_line : List Char → List Char
  | [] => []
  | c :: cs =>
    if "\r\n".toList.isPrefixOf (c :: cs) then [] else c :: request_line cs

/-- The bytes that a list of calls sends on the socket `fd` with `send`. -/
def sent (fd : Int) : List Effect → List Char
  | [] => []
  | Effect.send fd1 bytes :: rest =>
    if fd1 = fd then bytes ++ sent fd rest else sent fd rest
  | _ :: rest => sent fd rest

/-- The bytes sent on `fd` start with the status line `HTTP/1.1 <status>`. -/
def responds (fd : Int) (effects : List Effect) (status : List Char) : Prop :=
  ("HTTP/1.1 ".toList ++ status ++ "\r\n".toList) <+: sent fd effects

instance (fd : Int) (effects : List Effect) (status : List Char) :
    Decidable (responds fd effects status) := by
  unfold responds; infer_instance

/-- A call that consults the filesystem: `stat`, `open` or `sendfile`. -/
def Effect.touches_fs : Effect → Bool
  | Effect.stat _ => true
  | Effect.open_rdonly _ => true
  | Effect.sendfile _ _ _ _ _ => true
  | _ => false

/-- The table of the specification (section 4.1): the content type for the text
that follows the final dot of a path. -/
def mime_of_extension (ext : List Char) : List Char :=
  if ext = "html".toList then "text/html".toList
  else if ext = "css".toList then "text/css".toList
  else if ext = "js".toList then "application/javascript".toList
  else if ext = "png".toList then "image/png".toList
  else if ext = "jpg".toList then "image/jpeg".toList
  else if ext = "jpeg".toList then "image/jpeg".toList
  else if ext = "gif".toList then "image/gif".toList
  else if ext = "txt".toList then "text/plain".toList
  else "application/octet-stream".toList

/-- The header block of the specification (section 6): the status line and the
five fields in their order, every line ended by CRLF, then one empty line. -/
def header_block (status date content_type : List Char) (n : Nat) : List Char :=
  (["HTTP/1.1 ".toList ++ status,
    "Server: mini-webserver/0.1".toList,
    "Date: ".toList ++ date,
    "Content-Type: ".toList ++ content_type,
    "Content-Length: ".toList ++ Nat.toDigits 10 n,
    "Connection: close".toList].map (fun line => line ++ "\r\n".toList)).flatten ++
  "\r\n".toList

/-- The resolved path of the specification (section 4.4): the root followed by
`/index.html` for the target `/`, and by the target otherwise. -/
def resolved_target (root target : List Char) : List Char :=
  if target = "/".toList then root ++ "/index.html".toList else root ++ target

/-- A call made by `handle_request`: `send`, `stat`, `open`, `sendfile`, `close`. -/
def Effect.in_request : Effect → Bool
  | Effect.send _ _ => true
  | Effect.stat _ => true
  | Effect.open_rdonly _ => true
  | Effect.sendfile _ _ _ _ _ => true
  | Effect.close _ => true
  | _ => false

/-- An access to the client buffer by the read loop: the `read` call or the
store of the terminating NUL. -/
def Effect.is_buffer_access : Effect → Bool
  | Effect.read _ _ _ _ => true
  | Effect.store_nul _ => true
  | _ => false

/-- The buffer access stays inside the block of `BUFFER_SIZE` bytes: a `read` at
an offset below `BUFFER_SIZE` whose size is `BUFFER_SIZE - offset - 1` without
wrapping, a NUL stored at an index below `BUFFER_SIZE`. -/
def Effect.in_bounds : Effect → Bool
  | Effect.read _ offset size _ =>
    decide (offset + 1 ≤ BUFFER_SIZE ∧
      (size : Int) = (BUFFER_SIZE : Int) - (offset : Int) - 1)
  | Effect.store_nul index => decide (index < BUFFER_SIZE)
  | _ => true

/-- The `read` call returned at most the number of bytes requested. -/
def Effect.read_within : Effect → Bool
  | Effect.read _ _ size count => decide (count ≤ (size : Int))
  | _ => true

/-- No read of the chunks `ds` completes a header terminator: after each of
them the text of the buffer (the bytes before the first NUL) holds no
`\r\n\r\n`. -/
def chunks_quiet (buffer : List Char) (ds : List (List Char)) : Prop :=
  ∀ k, 0 < k → k ≤ ds.length →
    ¬ "\r\n\r\n".toList <:+: cstr (buffer ++ (ds.take k).flatten)

/-! ## Concrete inputs -/

/-- An environment in which no file exists. -/
def env_no_file : Env :=
  { date := "Sun, 01 Nov 2026 05:38:00 GMT".toList, stat := fun _ => none,
    open_rdonly := fun _ => none, sendfile := [], sigpipe := none }

/-- An environment in which no file exists and the peer has reset the
connection: the first write to the socket raises `SIGPIPE`. -/
def env_reset : Env :=
  { date := "Sun, 01 Nov 2026 05:38:00 GMT".toList, stat := fun _ => none,
    open_rdonly := fun _ => none, sendfile := [], sigpipe := some 0 }

/-- An environment in which `public/index.html` is a file of 5 bytes that
`sendfile` transfers in one call, and no other path exists. -/
def env_index : Env :=
  { date := "Sun, 01 Nov 2026 05:38:00 GMT".toList,
    stat := fun path =>
      if path = "public/index.html".toList then some { is_dir := false, st_size := 5 }
      else none,
    open_rdonly := fun path =>
      if path = "public/index.html".toList then some 7 else none,
    sendfile := [5], sigpipe := none }

/-- A client on socket `fd` whose buffer holds `text`. -/
def client_with (fd : Int) (text : List Char) : Client :=
  { fd := fd, buffer := text, len := text.length, pos := 0, state := 0 }

/-- A request target of 513 bytes whose only `../` starts at byte 510. -/
def long_target : List Char := '/' :: List.replicate 508 'a' ++ "../x".toList

/-- A GET request for `long_target`. -/
def long_target_request : List Char :=
  "GET ".toList ++ long_target ++ " HTTP/1.1\r\n\r\n".toList

/-- A root directory name of 1013 bytes. -/
def long_root : List Char := List.replicate 1013 'r'

/-! ## Properties of the C library functions -/

/-- `strrchr` returns the null pointer when the byte does not occur. -/
theorem strrchr_none_of_not_mem (c : Char) :
    ∀ s : List Char, c ∉ s → strrchr s c = none := by
  intro s
  induction s with
  | nil => intro _; rfl
  | cons x xs ih =>
    intro h
    have hx : ¬ x = c := fun e => h (by simp [e])
    have hxs : c ∉ xs := fun m => h (List.mem_cons_of_mem _ m)
    simp [strrchr, ih hxs, hx]

/-- `strrchr` returns the tail that starts at the last occurrence of the byte. -/
theorem strrchr_last (c : Char) (suf : List Char) (hsuf : c ∉ suf) :
    ∀ pre : List Char, strrchr (pre ++ c :: suf) c = some (c :: suf) := by
  intro pre
  induction pre with
  | nil => simp [strrchr, strrchr_none_of_not_mem c suf hsuf]
  | cons x xs ih => simp [strrchr, ih]

/-- `strstr` finds the needle exactly when it occurs in the haystack. -/
theorem strstr_isSome_iff (needle : List Char) :
    ∀ hay : List Char, (strstr hay needle).isSome = true ↔ needle <:+: hay := by
  intro hay
  induction hay with
  | nil =>
    by_cases h : needle = []
    · simp [strstr, h]
    · simp [strstr, h]
  | cons x xs ih =>
    rw [List.infix_cons_iff, ← ih]
    by_cases h : needle.isPrefixOf (x :: xs) = true
    · have hp : needle <+: x :: xs := List.isPrefixOf_iff_prefix.mp h
      simp [strstr, h, hp]
    · have hp : ¬ needle <+: x :: xs := fun hp => h (List.isPrefixOf_iff_prefix.mpr hp)
      simp [strstr, h, hp]

/-- The first element left by `dropWhile` does not satisfy the test. -/
theorem dropWhile_head (p : Char → Bool) (s : List Char) :
    ∀ x ∈ (s.dropWhile p).head?, ¬ p x = true := by
  induction s with
  | nil => simp
  | cons c cs ih =>
    by_cases h : p c = true
    · rw [List.dropWhile_cons_of_pos h]; exact ih
    · rw [List.dropWhile_cons_of_neg h]; simpa using h

/-- The size passed to `read` does not wrap while `len` is at most 8191. -/
theorem read_size_eq (len : Nat) (h : len ≤ 8191) : read_size len = 8191 - len := by
  unfold read_size BUFFER_SIZE
  have : ((8192 : Nat) : Int) - (len : Int) - 1 = ((8191 - len : Nat) : Int) := by omega
  rw [this]
  have h2 : (((8191 - len : Nat) : Int) % (2 ^ 64 : Int)) = ((8191 - len : Nat) : Int) := by
    apply Int.emod_eq_of_lt
    · omega
    · have : (2 ^ 64 : Int) = 18446744073709551616 := by norm_num
      omega
  rw [h2]
  simp

/-! ## Tokens and the `sscanf` call -/

/-- The empty text has no token. -/
theorem tokens_nil : tokens [] = [] := by decide

/-- Leading white space does not change the tokens. -/
theorem tokens_cons_space (c : Char) (cs : List Char) (h : isspace c = true) :
    tokens (c :: cs) = tokens cs := by
  simp [tokens, List.splitOnP_cons, h]

/-- Skipping leading white space does not change the tokens. -/
theorem tokens_dropWhile_space (s : List Char) :
    tokens (s.dropWhile isspace) = tokens s := by
  induction s with
  | nil => rfl
  | cons c cs ih =>
    by_cases h : isspace c = true
    · rw [List.dropWhile_cons_of_pos h, ih, tokens_cons_space c cs h]
    · rw [List.dropWhile_cons_of_neg h]

/-- A run of bytes without white space, followed by nothing or by white space, is the
first token. -/
theorem tokens_run (a b : List Char) (ha : a ≠ []) (hns : ∀ x ∈ a, ¬ isspace x = true)
    (hb : ∀ x ∈ b.head?, isspace x = true) :
    tokens (a ++ b) = a :: tokens b := by
  cases b with
  | nil =>
    simp only [List.append_nil, tokens]
    rw [List.splitOnP_eq_single isspace a hns]
    simp [ha]
  | cons sep as =>
    have hsep : isspace sep = true := hb sep (by simp)
    simp only [tokens]
    rw [List.splitOnP_first isspace a hns sep hsep as, List.splitOnP_cons]
    simp [ha, hsep]

/-- The conversion `%Ns` on an input whose first byte after the white space is known. -/
theorem scan_s_eq (w : Nat) (s : List Char) (c : Char) (cs : List Char)
    (h : s.dropWhile isspace = c :: cs) :
    scan_s w s = some (((c :: cs).takeWhile (fun x => !isspace x)).take w,
      (c :: cs).drop (((c :: cs).takeWhile (fun x => !isspace x)).take w).length) := by
  simp only [scan_s, h]

/-- The conversion `%Ns` fails on a text without tokens. -/
theorem scan_s_none (w : Nat) (s : List Char) (h : tokens s = []) : scan_s w s = none := by
  cases hs : s.dropWhile isspace with
  | nil => simp only [scan_s, hs]
  | cons c cs =>
    exfalso
    have hc : ¬ isspace c = true := dropWhile_head isspace s c (by simp [hs])
    have hsplit : c :: cs = (c :: cs).takeWhile (fun x => !isspace x) ++
        (c :: cs).dropWhile (fun x => !isspace x) := (List.takeWhile_append_dropWhile _ _).symm
    have htw : (c :: cs).takeWhile (fun x => !isspace x) ≠ [] := by
      rw [List.takeWhile_cons_of_pos (by simpa using hc)]; simp
    have hrun := tokens_run _ ((c :: cs).dropWhile (fun x => !isspace x)) htw
      (fun x hx => by simpa using List.mem_takeWhile_imp hx)
      (fun x hx => by simpa using dropWhile_head (fun x => !isspace x) (c :: cs) x hx)
    have htok : tokens (c :: cs) = [] := by rw [← hs, tokens_dropWhile_space, h]
    rw [hsplit, hrun] at htok
    exact List.noConfusion htok

/-- The conversion `%Ns` takes the first `w` bytes of the first token; what exceeds `w`
bytes stays in the input as a token. -/
theorem scan_s_some (w : Nat) (s t : List Char) (ts : List (List Char))
    (h : tokens s = t :: ts) :
    ∃ r, scan_s w s = some (t.take w, r) ∧
      tokens r = if t.length ≤ w then ts else t.drop w :: ts := by
  cases hs : s.dropWhile isspace with
  | nil =>
    exfalso
    have := tokens_dropWhile_space s
    rw [hs, h] at this
    exact List.noConfusion this
  | cons c cs =>
    have hc : ¬ isspace c = true := dropWhile_head isspace s c (by simp [hs])
    have hsplit : c :: cs = (c :: cs).takeWhile (fun x => !isspace x) ++
        (c :: cs).dropWhile (fun x => !isspace x) := (List.takeWhile_append_dropWhile _ _).symm
    have htw : (c :: cs).takeWhile (fun x => !isspace x) ≠ [] := by
      rw [List.takeWhile_cons_of_pos (by simpa using hc)]; simp
    have hns : ∀ x ∈ (c :: cs).takeWhile (fun x => !isspace x), ¬ isspace x = true :=
      fun x hx => by simpa using List.mem_takeWhile_imp hx
    have hdr : ∀ x ∈ ((c :: cs).dropWhile (fun x => !isspace x)).head?, isspace x = true :=
      fun x hx => by simpa using dropWhile_head (fun x => !isspace x) (c :: cs) x hx
    have hrun := tokens_run _ _ htw hns hdr
    have htok : tokens (c :: cs) = t :: ts := by rw [← hs, tokens_dropWhile_space, h]
    rw [scan_s_eq w s c cs hs]
    generalize (c :: cs).takeWhile (fun x => !isspace x) = tw at *
    generalize (c :: cs).dropWhile (fun x => !isspace x) = dr at *
    rw [hsplit, hrun] at htok
    injection htok with ht hts
    subst ht
    refine ⟨_, rfl, ?_⟩
    rw [hsplit]
    by_cases hle : tw.length ≤ w
    · rw [if_pos hle, List.take_of_length_le hle, List.drop_left, hts]
    · rw [if_neg hle]
      have hlt : w < tw.length := Nat.lt_of_not_le hle
      have hlen : (tw.take w).length = w := by simp [List.length_take, Nat.le_of_lt hlt]
      rw [hlen, List.drop_append_of_le_length (Nat.le_of_lt hlt), ← hts]
      apply tokens_run
      · intro e
        have := congrArg List.length e
        simp at this
        omega
      · intro x hx
        exact hns x (List.mem_of_mem_drop hx)
      · exact hdr

/-- Three successful conversions give the return value 3. -/
theorem sscanf_request_three (b m r1 p r2 q r3 : List Char)
    (h1 : scan_s 15 (cstr b) = some (m, r1)) (h2 : scan_s 511 r1 = some (p, r2))
    (h3 : scan_s 15 r2 = some (q, r3)) :
    sscanf_request b = { ret := 3, method := m, path := p, protocol := q } := by
  simp only [sscanf_request, h1, h2, h3]

/-- The `sscanf` call on a buffer of three or more tokens. -/
theorem sscanf_request_tokens (b m t p : List Char) (rest : List (List Char))
    (h : tokens (cstr b) = m :: t :: p :: rest) :
    (sscanf_request b).ret = 3 ∧ (sscanf_request b).method = m.take 15 ∧
    (m.length ≤ 15 → (sscanf_request b).path = t.take 511) ∧
    (m.length ≤ 15 → t.length ≤ 511 → (sscanf_request b).protocol = p.take 15) := by
  obtain ⟨r1, h1, k1⟩ := scan_s_some 15 _ _ _ h
  by_cases hm : m.length ≤ 15
  · rw [if_pos hm] at k1
    obtain ⟨r2, h2, k2⟩ := scan_s_some 511 _ _ _ k1
    by_cases ht : t.length ≤ 511
    · rw [if_pos ht] at k2
      obtain ⟨r3, h3, _⟩ := scan_s_some 15 _ _ _ k2
      rw [sscanf_request_three b _ r1 _ r2 _ r3 h1 h2 h3]
      exact ⟨rfl, rfl, fun _ => rfl, fun _ _ => rfl⟩
    · rw [if_neg ht] at k2
      obtain ⟨r3, h3, _⟩ := scan_s_some 15 _ _ _ k2
      rw [sscanf_request_three b _ r1 _ r2 _ r3 h1 h2 h3]
      exact ⟨rfl, rfl, fun _ => rfl, fun _ h => absurd h ht⟩
  · rw [if_neg hm] at k1
    obtain ⟨r2, h2, k2⟩ := scan_s_some 511 _ _ _ k1
    have k2b : ∃ u us, tokens r2 = u :: us := by
      by_cases hd : (m.drop 15).length ≤ 511
      · rw [if_pos hd] at k2; exact ⟨_, _, k2⟩
      · rw [if_neg hd] at k2; exact ⟨_, _, k2⟩
    obtain ⟨u, us, k3⟩ := k2b
    obtain ⟨r3, h3, _⟩ := scan_s_some 15 _ _ _ k3
    rw [sscanf_request_three b _ r1 _ r2 _ r3 h1 h2 h3]
    exact ⟨rfl, rfl, fun h => absurd h hm, fun h => absurd h hm⟩

/-- The `sscanf` call on a buffer of fewer than three tokens within the widths. -/
theorem sscanf_request_few (b : List Char) (hlen : (tokens (cstr b)).length < 3)
    (h0 : ∀ t, (tokens (cstr b))[0]? = some t → t.length ≤ 15)
    (h1 : ∀ t, (tokens (cstr b))[1]? = some t → t.length ≤ 511) :
    (sscanf_request b).ret ≠ 3 := by
  cases h : tokens (cstr b) with
  | nil =>
    have := scan_s_none 15 _ h
    simp [sscanf_request, this]
  | cons a as =>
    rw [h] at hlen h0 h1
    have ha : a.length ≤ 15 := h0 a (by simp)
    obtain ⟨r1, e1, k1⟩ := scan_s_some 15 _ _ _ h
    rw [if_pos ha] at k1
    cases as with
    | nil =>
      have := scan_s_none 511 _ k1
      simp [sscanf_request, e1, this]
    | cons c cs =>
      have hc : c.length ≤ 511 := h1 c (by simp)
      obtain ⟨r2, e2, k2⟩ := scan_s_some 511 _ _ _ k1
      rw [if_pos hc] at k2
      cases cs with
      | nil =>
        have := scan_s_none 15 _ k2
        simp [sscanf_request, e1, e2, this]
      | cons d ds => simp at hlen; omega

/-! ## Header bytes -/

/-- The format of `send_response` expands to the header block. -/
theorem send_response_format_eq (status date ctype : List Char) (n : Nat) :
    send_response_format status date ctype n = header_block status date ctype n := by
  have e1 : "\r\nServer: mini-webserver/0.1\r\nDate: ".toList =
      "\r\n".toList ++ ("Server: mini-webserver/0.1".toList ++ ("\r\n".toList ++ "Date: ".toList)) := by
    decide
  have e2 : "\r\nContent-Type: ".toList = "\r\n".toList ++ "Content-Type: ".toList := by decide
  have e3 : "\r\nContent-Length: ".toList = "\r\n".toList ++ "Content-Length: ".toList := by
    decide
  have e4 : "\r\nConnection: close\r\n\r\n".toList =
      "\r\n".toList ++ ("Connection: close".toList ++ ("\r\n".toList ++ "\r\n".toList)) := by
    decide
  simp only [send_response_format, header_block, fmt_zu, e1, e2, e3, e4, List.map, List.flatten_cons,
    List.flatten_nil, List.append_assoc, List.append_nil]

/-- The format of the 200 path expands to that of `send_response` with status 200 OK. -/
theorem ok_format_eq (date ctype : List Char) (n : Nat) :
    ok_format date ctype (n : Int) = send_response_format "200 OK".toList date ctype n := by
  have e1 : "HTTP/1.1 200 OK\r\nServer: mini-webserver/0.1\r\nDate: ".toList =
      "HTTP/1.1 ".toList ++ ("200 OK".toList ++
        "\r\nServer: mini-webserver/0.1\r\nDate: ".toList) := by decide
  have e2 : fmt_lld (n : Int) = fmt_zu n := by
    simp [fmt_lld, fmt_zu]
  simp only [ok_format, send_response_format, e1, e2, List.append_assoc]

/-- The header of `send_response` is the header block when it fits the array. -/
theorem send_response_header_eq_block (status date ctype : List Char) (n : Nat)
    (h : (header_block status date ctype n).length ≤ 8191) :
    send_response_header status date ctype n = header_block status date ctype n := by
  rw [send_response_header, send_response_format_eq, snprintf]
  exact List.take_of_length_le h

/-- The 200 path and `send_response` build the same header bytes. -/
theorem ok_header_eq_send_response_header (date ctype : List Char) (n : Nat) :
    ok_header date ctype (n : Int) = send_response_header "200 OK".toList date ctype n := by
  rw [ok_header, ok_format_eq, send_response_header]

/-- The header of the 200 path is the header block when it fits the array. -/
theorem ok_header_eq_block (date ctype : List Char) (n : Nat)
    (h : (header_block "200 OK".toList date ctype n).length ≤ 8191) :
    ok_header date ctype (n : Int) = header_block "200 OK".toList date ctype n := by
  rw [ok_header_eq_send_response_header]
  exact send_response_header_eq_block _ _ _ _ h

/-! ## The calls of `send_response` and `handle_request` -/

/-- The bytes sent by `send_response` start with its header. -/
theorem sent_send_response (fd : Int) (date status ctype body : List Char) (n : Nat) :
    send_response_header status date ctype n <+:
      sent fd (send_response fd date status ctype body n) := by
  unfold send_response
  by_cases h : n > 0
  · simp [h, sent]
  · simp [h, sent]

/-- The bytes sent by `send_response` start with the status line. -/
theorem responds_send_response (fd : Int) (date status ctype body : List Char) (n : Nat)
    (h : status.length ≤ 8000) :
    responds fd (send_response fd date status ctype body n) status := by
  unfold responds
  refine List.IsPrefix.trans ?_ (sent_send_response fd date status ctype body n)
  unfold send_response_header snprintf
  rw [List.prefix_take_iff]
  constructor
  · unfold send_response_format
    have e : "\r\nServer: mini-webserver/0.1\r\nDate: ".toList =
        "\r\n".toList ++ "Server: mini-webserver/0.1\r\nDate: ".toList := by decide
    rw [e]
    simp only [List.append_assoc]
    refine ⟨"Server: mini-webserver/0.1\r\nDate: ".toList ++ (date ++
      ("\r\nContent-Type: ".toList ++ (ctype ++ ("\r\nContent-Length: ".toList ++
        (fmt_zu n ++ "\r\nConnection: close\r\n\r\n".toList))))), ?_⟩
    simp only [List.append_assoc]
  · have e1 : "HTTP/1.1 ".toList.length = 9 := by decide
    have e2 : "\r\n".toList.length = 2 := by decide
    simp only [List.length_append, e1, e2, BUFFER_SIZE]
    omega

/-- A call other than `send` in front does not change the bytes sent. -/
theorem responds_cons (fd : Int) (e : Effect) (es : List Effect) (status : List Char)
    (he : ∀ fd1 bytes, e ≠ Effect.send fd1 bytes) (h : responds fd es status) :
    responds fd (e :: es) status := by
  unfold responds at *
  cases e <;> first | exact h | exact absurd rfl (he _ _)

/-- The header of the 200 path starts with the status line `HTTP/1.1 200 OK`. -/
theorem responds_ok_header (fd : Int) (date ctype : List Char) (size : Int)
    (rest : List Effect) :
    responds fd (Effect.send fd (ok_header date ctype size) :: rest) "200 OK".toList := by
  unfold responds
  have hs : sent fd (Effect.send fd (ok_header date ctype size) :: rest) =
      ok_header date ctype size ++ sent fd rest := by simp [sent]
  rw [hs]
  refine List.IsPrefix.trans ?_ (List.prefix_append _ _)
  unfold ok_header snprintf
  rw [List.prefix_take_iff]
  constructor
  · unfold ok_format
    have e : "HTTP/1.1 200 OK\r\nServer: mini-webserver/0.1\r\nDate: ".toList =
        ("HTTP/1.1 ".toList ++ "200 OK".toList ++ "\r\n".toList) ++
          "Server: mini-webserver/0.1\r\nDate: ".toList := by decide
    rw [e]
    simp only [List.append_assoc]
    exact ⟨"Server: mini-webserver/0.1\r\nDate: ".toList ++ (date ++
      ("\r\nContent-Type: ".toList ++ (ctype ++ ("\r\nContent-Length: ".toList ++
        (fmt_lld size ++ "\r\nConnection: close\r\n\r\n".toList))))),
      by simp only [List.append_assoc]⟩
  · decide

/-- The function `send_response` does not consult the filesystem. -/
theorem send_response_no_fs (fd : Int) (date status ctype body : List Char) (n : Nat) :
    ∀ e ∈ send_response fd date status ctype body n, e.touches_fs = false := by
  intro e he
  unfold send_response at he
  by_cases h : n > 0
  · simp [h] at he
    rcases he with rfl | rfl <;> rfl
  · simp [h] at he
    subst he; rfl

/-- The calls of `send_response` are `send` calls. -/
theorem send_response_in_request (fd : Int) (date status ctype body : List Char) (n : Nat) :
    ∀ e ∈ send_response fd date status ctype body n, e.in_request = true := by
  intro e he
  unfold send_response at he
  by_cases h : n > 0
  · simp [h] at he
    rcases he with rfl | rfl <;> rfl
  · simp [h] at he
    subst he; rfl

/-- The calls of the transfer loop are `sendfile` calls. -/
theorem sendfile_loop_in_request (out_fd in_fd : Int) (size : Int) :
    ∀ (script : List Int) (offset : Int),
      ∀ e ∈ sendfile_loop out_fd in_fd size offset script, e.in_request = true := by
  intro script
  induction script with
  | nil =>
    intro offset e he
    unfold sendfile_loop at he
    split at he
    · simp at he; subst he; rfl
    · simp at he
  | cons s rest ih =>
    intro offset e he
    unfold sendfile_loop at he
    split at he
    · rw [List.mem_cons] at he
      rcases he with rfl | he
      · rfl
      · split at he
        · simp at he
        · exact ih _ e he
    · simp at he

/-- The branch of `handle_request` for a `sscanf` result other than 3. -/
theorem handle_request_bad (env : Env) (client : Client) (root : List Char)
    (h : (sscanf_request client.buffer).ret ≠ 3) :
    handle_request env client root =
      (send_response client.fd env.date "400 Bad Request".toList "text/plain".toList
        "Bad Request".toList 11, { client with state := 2 }) := by
  simp only [handle_request, h, ne_eq, not_false_eq_true, if_true]

/-- The branch of `handle_request` for a method other than GET. -/
theorem handle_request_method (env : Env) (client : Client) (root : List Char)
    (h : (sscanf_request client.buffer).ret = 3)
    (hm : (sscanf_request client.buffer).method ≠ "GET".toList) :
    handle_request env client root =
      (send_response client.fd env.date "405 Method Not Allowed".toList "text/plain".toList
        "Method Not Allowed".toList 19, { client with state := 2 }) := by
  simp only [handle_request, h, hm, ne_eq, not_true_eq_false, not_false_eq_true, if_true, if_false]

/-- The branch of `handle_request` for a GET whose path holds `../`. -/
theorem handle_request_get (env : Env) (client : Client) (root : List Char)
    (h : (sscanf_request client.buffer).ret = 3)
    (hm : (sscanf_request client.buffer).method = "GET".toList)
    (hs : "../".toList <:+: resolve_path root (sscanf_request client.buffer).path) :
    handle_request env client root =
      (send_response client.fd env.date "403 Forbidden".toList "text/plain".toList
        "Forbidden".toList 9, { client with state := 2 }) := by
  have hs' := (strstr_isSome_iff _ _).mpr hs
  simp only [handle_request, h, hm, hs', ne_eq, not_true_eq_false, if_true, if_false]

/-- The function `handle_request` makes no buffer access and no teardown call. -/
theorem handle_request_in_request (env : Env) (client : Client) (root : List Char) :
    ∀ e ∈ (handle_request env client root).1, e.in_request = true := by
  intro e he
  unfold handle_request at he
  simp only at he
  split at he
  · exact send_response_in_request _ _ _ _ _ _ e (by simpa using he)
  · split at he
    · exact send_response_in_request _ _ _ _ _ _ e (by simpa using he)
    · split at he
      · exact send_response_in_request _ _ _ _ _ _ e (by simpa using he)
      · split at he
        · rw [List.mem_cons] at he
          rcases he with rfl | he
          · rfl
          · exact send_response_in_request _ _ _ _ _ _ e he
        · split at he
          · rw [List.mem_cons] at he
            rcases he with rfl | he
            · rfl
            · exact send_response_in_request _ _ _ _ _ _ e he
          · split at he
            · simp only [List.mem_cons] at he
              rcases he with rfl | rfl | he
              · rfl
              · rfl
              · exact send_response_in_request _ _ _ _ _ _ e he
            · simp only [List.mem_cons, List.mem_append, List.not_mem_nil, or_false] at he
              rcases he with rfl | rfl | rfl | he | rfl
              · rfl
              · rfl
              · rfl
              · exact sendfile_loop_in_request _ _ _ _ _ e he
              · rfl

/-- The function `handle_request` only sets `state` to 2 in the client record. -/
theorem handle_request_client (env : Env) (client : Client) (root : List Char) :
    (handle_request env client root).2 = { client with state := 2 } := by
  unfold handle_request
  simp only
  split
  · rfl
  · split
    · rfl
    · split
      · rfl
      · split
        · rfl
        · split
          · rfl
          · split <;> rfl

/-- The calls of `handle_request` depend on the socket and the buffer of the client
only. -/
theorem handle_request_effects_congr (env : Env) (root : List Char) (c c1 : Client)
    (hfd : c.fd = c1.fd) (hbuf : c.buffer = c1.buffer) :
    (handle_request env c root).1 = (handle_request env c1 root).1 := by
  unfold handle_request
  simp only [hfd, hbuf]
  split
  · rfl
  · split
    · rfl
    · split
      · rfl
      · split
        · rfl
        · split
          · rfl
          · split <;> rfl

/-- Two status lines at the start of the same bytes: one is a prefix of the other. -/
theorem responds_comparable (fd : Int) (es : List Effect) (s1 s2 : List Char)
    (h1 : responds fd es s1) (h2 : responds fd es s2) :
    ("HTTP/1.1 ".toList ++ s1 ++ "\r\n".toList) <+: ("HTTP/1.1 ".toList ++ s2 ++ "\r\n".toList) ∨
    ("HTTP/1.1 ".toList ++ s2 ++ "\r\n".toList) <+: ("HTTP/1.1 ".toList ++ s1 ++ "\r\n".toList) := by
  unfold responds at h1 h2
  rcases Nat.le_total ("HTTP/1.1 ".toList ++ s1 ++ "\r\n".toList).length
      ("HTTP/1.1 ".toList ++ s2 ++ "\r\n".toList).length with h | h
  · exact Or.inl (List.prefix_of_prefix_length_le h1 h2 h)
  · exact Or.inr (List.prefix_of_prefix_length_le h2 h1 h)

/-- The calls of `handle_request` for a GET, by the path built and the answers of
`stat` and `open`. -/
theorem handle_request_get_cases (env : Env) (client : Client) (root : List Char)
    (h3 : (sscanf_request client.buffer).ret = 3)
    (hm : (sscanf_request client.buffer).method = "GET".toList) (full : List Char)
    (hfull : resolve_path root (sscanf_request client.buffer).path = full) :
    ("../".toList <:+: full →
      (handle_request env client root).1 =
        send_response client.fd env.date "403 Forbidden".toList "text/plain".toList
          "Forbidden".toList 9) ∧
    (¬ "../".toList <:+: full →
      (env.stat full = none →
        (handle_request env client root).1 =
          Effect.stat full ::
            send_response client.fd env.date "404 Not Found".toList "text/html".toList
              "<h1>404 Not Found</h1>".toList "<h1>404 Not Found</h1>".toList.length) ∧
      (∀ st, env.stat full = some st → st.is_dir = true →
        (handle_request env client root).1 =
          Effect.stat full ::
            send_response client.fd env.date "403 Forbidden".toList "text/html".toList
              "<h1>Directory listing not supported</h1>".toList
              "<h1>Directory listing not supported</h1>".toList.length) ∧
      (∀ st, env.stat full = some st → st.is_dir = false → env.open_rdonly full = none →
        (handle_request env client root).1 =
          Effect.stat full :: Effect.open_rdonly full ::
            send_response client.fd env.date "500 Internal Server Error".toList
              "text/html".toList "<h1>500 Internal Server Error</h1>".toList
              "<h1>500 Internal Server Error</h1>".toList.length) ∧
      (∀ st file_fd, env.stat full = some st → st.is_dir = false →
        env.open_rdonly full = some file_fd →
        (handle_request env client root).1 =
          Effect.stat full :: Effect.open_rdonly full ::
            Effect.send client.fd (ok_header env.date (get_mime_type full) st.st_size) ::
            (sendfile_loop client.fd file_fd st.st_size 0 env.sendfile ++
              [Effect.close file_fd]))) := by
  constructor
  · intro hin
    rw [handle_request_get env client root h3 hm (by rw [hfull]; exact hin)]
  · intro hno
    have hstr : (strstr full "../".toList).isSome = false := by
      rw [Bool.eq_false_iff]
      intro h
      exact hno ((strstr_isSome_iff _ _).mp h)
    refine ⟨?_, ?_, ?_, ?_⟩
    · intro hstat
      simp only [handle_request, h3, hm, hfull, hstr, hstat, ne_eq, not_true_eq_false,
        if_false, Bool.false_eq_true]
    · intro st hstat hdir
      simp only [handle_request, h3, hm, hfull, hstr, hstat, hdir, ne_eq, not_true_eq_false,
        if_false, if_true, Bool.false_eq_true]
    · intro st hstat hdir hopen
      simp only [handle_request, h3, hm, hfull, hstr, hstat, hdir, hopen, ne_eq,
        not_true_eq_false, if_false, Bool.false_eq_true]
    · intro st file_fd hstat hdir hopen
      simp only [handle_request, h3, hm, hfull, hstr, hstat, hdir, hopen, ne_eq,
        not_true_eq_false, if_false, Bool.false_eq_true]

/-- A request from which `sscanf` extracts three tokens is not answered 400. -/
theorem handle_request_not_400 (env : Env) (client : Client) (root : List Char)
    (h3 : (sscanf_request client.buffer).ret = 3) :
    ¬ responds client.fd (handle_request env client root).1 "400 Bad Request".toList := by
  intro h400
  have key : ∀ s : List Char, responds client.fd (handle_request env client root).1 s →
      ¬ (("HTTP/1.1 ".toList ++ s ++ "\r\n".toList) <+:
          ("HTTP/1.1 ".toList ++ "400 Bad Request".toList ++ "\r\n".toList)) →
      ¬ (("HTTP/1.1 ".toList ++ "400 Bad Request".toList ++ "\r\n".toList) <+:
          ("HTTP/1.1 ".toList ++ s ++ "\r\n".toList)) → False := by
    intro s hs n1 n2
    rcases responds_comparable _ _ _ _ hs h400 with h | h
    · exact n1 h
    · exact n2 h
  by_cases hm : (sscanf_request client.buffer).method = "GET".toList
  · obtain ⟨c403, crest⟩ := handle_request_get_cases env client root h3 hm _ rfl
    by_cases hin : "../".toList <:+: resolve_path root (sscanf_request client.buffer).path
    · refine key "403 Forbidden".toList ?_ (by decide) (by decide)
      rw [c403 hin]
      exact responds_send_response client.fd env.date "403 Forbidden".toList _ _ _ (by decide)
    · obtain ⟨c404, cdir, c500, c200⟩ := crest hin
      cases hstat : env.stat (resolve_path root (sscanf_request client.buffer).path) with
      | none =>
        refine key "404 Not Found".toList ?_ (by decide) (by decide)
        rw [c404 hstat]
        exact responds_cons _ _ _ _ (fun _ _ h => Effect.noConfusion h)
          (responds_send_response client.fd env.date "404 Not Found".toList _ _ _ (by decide))
      | some st =>
        by_cases hdir : st.is_dir = true
        · refine key "403 Forbidden".toList ?_ (by decide) (by decide)
          rw [cdir st hstat hdir]
          exact responds_cons _ _ _ _ (fun _ _ h => Effect.noConfusion h)
            (responds_send_response client.fd env.date "403 Forbidden".toList _ _ _
              (by decide))
        · have hdir0 : st.is_dir = false := by simpa using hdir
          cases hopen : env.open_rdonly
              (resolve_path root (sscanf_request client.buffer).path) with
          | none =>
            refine key "500 Internal Server Error".toList ?_ (by decide) (by decide)
            rw [c500 st hstat hdir0 hopen]
            exact responds_cons _ _ _ _ (fun _ _ h => Effect.noConfusion h)
              (responds_cons _ _ _ _ (fun _ _ h => Effect.noConfusion h)
                (responds_send_response client.fd env.date
                  "500 Internal Server Error".toList _ _ _ (by decide)))
          | some file_fd =>
            refine key "200 OK".toList ?_ (by decide) (by decide)
            rw [c200 st file_fd hstat hdir0 hopen]
            exact responds_cons _ _ _ _ (fun _ _ h => Effect.noConfusion h)
              (responds_cons _ _ _ _ (fun _ _ h => Effect.noConfusion h)
                (responds_ok_header _ _ _ _ _))
  · refine key "405 Method Not Allowed".toList ?_ (by decide) (by decide)
    rw [handle_request_method env client root h3 hm]
    dsimp only
    exact responds_send_response client.fd env.date "405 Method Not Allowed".toList _ _ _
      (by decide)

/-! ## Writes that raise `SIGPIPE` -/

/-- The calls kept by `cut_at_write` are calls of the list or the termination. -/
theorem cut_at_write_mem :
    ∀ (es : List Effect) (k : Nat), ∀ e ∈ (cut_at_write k es).1,
      e ∈ es ∨ e = Effect.sigpipe := by
  intro es
  induction es with
  | nil => intro k e he; simp [cut_at_write] at he
  | cons x xs ih =>
    intro k e he
    unfold cut_at_write at he
    by_cases hw : x.writes_socket = true
    · rw [if_pos hw] at he
      cases k with
      | zero =>
        simp only [List.mem_cons, List.not_mem_nil, or_false] at he
        rcases he with rfl | rfl
        · exact Or.inl (List.mem_cons_self _ _)
        · exact Or.inr rfl
      | succ k1 =>
        simp only [List.mem_cons] at he
        rcases he with rfl | he
        · exact Or.inl (List.mem_cons_self _ _)
        · rcases ih k1 e he with h | h
          · exact Or.inl (List.mem_cons_of_mem _ h)
          · exact Or.inr h
    · rw [if_neg hw] at he
      simp only [List.mem_cons] at he
      rcases he with rfl | he
      · exact Or.inl (List.mem_cons_self _ _)
      · rcases ih k e he with h | h
        · exact Or.inl (List.mem_cons_of_mem _ h)
        · exact Or.inr h

/-- The calls kept by `until_sigpipe` are calls of the list or the termination. -/
theorem until_sigpipe_mem (sp : Option Nat) (es : List Effect) :
    ∀ e ∈ (until_sigpipe sp es).1, e ∈ es ∨ e = Effect.sigpipe := by
  cases sp with
  | none => intro e he; exact Or.inl he
  | some k => exact cut_at_write_mem es k

/-- When at least as many writes return as the list holds, every call is made. -/
theorem cut_at_write_all :
    ∀ (es : List Effect) (k : Nat), (es.filter Effect.writes_socket).length ≤ k →
      cut_at_write k es = (es, false) := by
  intro es
  induction es with
  | nil => intro k _; rfl
  | cons x xs ih =>
    intro k hk
    unfold cut_at_write
    by_cases hw : x.writes_socket = true
    · rw [if_pos hw]
      rw [List.filter_cons_of_pos hw, List.length_cons] at hk
      cases k with
      | zero => exact absurd hk (Nat.not_succ_le_zero _)
      | succ k1 =>
        simp only [ih k1 (Nat.le_of_succ_le_succ hk)]
    · rw [if_neg hw]
      rw [List.filter_cons_of_neg hw] at hk
      simp only [ih k hk]

/-- When fewer writes return than the list holds, the calls made are those up
to write number `k + 1`, and the process is terminated. -/
theorem cut_at_write_cut :
    ∀ (es : List Effect) (k : Nat), k < (es.filter Effect.writes_socket).length →
      ∃ made, made <+: es ∧ (made.filter Effect.writes_socket).length = k + 1 ∧
        cut_at_write k es = (made ++ [Effect.sigpipe], true) := by
  intro es
  induction es with
  | nil => intro k hk; exact absurd hk (Nat.not_lt_zero _)
  | cons x xs ih =>
    intro k hk
    unfold cut_at_write
    by_cases hw : x.writes_socket = true
    · rw [if_pos hw]
      rw [List.filter_cons_of_pos hw, List.length_cons] at hk
      cases k with
      | zero =>
        refine ⟨[x], ⟨xs, rfl⟩, ?_, rfl⟩
        rw [List.filter_cons_of_pos hw]
        rfl
      | succ k1 =>
        obtain ⟨made, hpre, hlen, heq⟩ := ih k1 (Nat.lt_of_succ_lt_succ hk)
        refine ⟨x :: made, ?_, ?_, ?_⟩
        · obtain ⟨t, ht⟩ := hpre
          exact ⟨t, by rw [← ht]; rfl⟩
        · rw [List.filter_cons_of_pos hw, List.length_cons, hlen]
        · simp only [heq, List.cons_append]
    · rw [if_neg hw]
      rw [List.filter_cons_of_neg hw] at hk
      obtain ⟨made, hpre, hlen, heq⟩ := ih k hk
      refine ⟨x :: made, ?_, ?_, ?_⟩
      · obtain ⟨t, ht⟩ := hpre
        exact ⟨t, by rw [← ht]; rfl⟩
      · rw [List.filter_cons_of_neg hw, hlen]
      · simp only [heq, List.cons_append]

/-- A terminated process has the termination among its calls. -/
theorem cut_at_write_killed :
    ∀ (es : List Effect) (k : Nat), (cut_at_write k es).2 = true →
      Effect.sigpipe ∈ (cut_at_write k es).1 := by
  intro es k h
  by_cases hk : k < (es.filter Effect.writes_socket).length
  · obtain ⟨made, _, _, heq⟩ := cut_at_write_cut es k hk
    rw [heq]
    simp
  · rw [cut_at_write_all es k (Nat.le_of_not_lt hk)] at h
    exact Bool.noConfusion h

/-- A terminated process has the termination among its calls. -/
theorem until_sigpipe_killed (sp : Option Nat) (es : List Effect)
    (h : (until_sigpipe sp es).2 = true) : Effect.sigpipe ∈ (until_sigpipe sp es).1 := by
  cases sp with
  | none => exact Bool.noConfusion h
  | some k => exact cut_at_write_killed es k h

/-! ## The read loop -/

/-- The calls of `handle_request` are not buffer accesses. -/
theorem in_bounds_of_in_request (e : Effect) (h : e.in_request = true) :
    e.in_bounds = true := by
  cases e <;> first | rfl | exact Bool.noConfusion h

/-- The teardown calls are not buffer accesses. -/
theorem in_bounds_teardown (client : Client) :
    ∀ e ∈ teardown client, e.in_bounds = true := by
  intro e he
  simp only [teardown, List.mem_cons, List.not_mem_nil, or_false] at he
  rcases he with rfl | rfl | rfl | rfl <;> rfl

/-- A `read` issued while `len` is at most 8191 stays inside the buffer. -/
theorem in_bounds_read (fd : Int) (len : Nat) (count : Int) (h : len ≤ 8191) :
    (Effect.read fd len (read_size len) count).in_bounds = true := by
  simp only [Effect.in_bounds, read_size_eq len h, BUFFER_SIZE, decide_eq_true_eq]
  omega

/-- The calls of `handle_request` made before a `SIGPIPE`, and the termination, are not
buffer accesses. -/
theorem in_bounds_until_sigpipe (env : Env) (client : Client) (root : List Char) :
    ∀ e ∈ (until_sigpipe env.sigpipe (handle_request env client root).1).1,
      e.in_bounds = true := by
  intro e he
  rcases until_sigpipe_mem _ _ e he with h | h
  · exact in_bounds_of_in_request e (handle_request_in_request _ _ _ e h)
  · subst h; rfl

/-- A `read` that stores a non-empty chunk returns a positive count. -/
theorem data_count_pos (d : List Char) (h : d ≠ []) : (ReadResult.data d).count > 0 := by
  cases d with
  | nil => exact absurd rfl h
  | cons x xs => simp [ReadResult.count]

/-- One iteration of the read loop that stores bytes and finds no terminator. -/
theorem read_loop_continue (env : Env) (root : List Char) (client : Client)
    (r : ReadResult) (rest : List ReadResult) (hc : r.count > 0)
    (ht : ¬ (strstr (cstr (client.buffer ++ r.bytes)) "\r\n\r\n".toList).isSome = true) :
    read_loop env root client (r :: rest) =
      { read_loop env root
          { client with buffer := client.buffer ++ r.bytes,
                        len := (client.len + r.count.toNat) % 2 ^ 64 } rest with
        effects := Effect.read client.fd client.len (read_size client.len) r.count ::
          Effect.store_nul ((client.len + r.count.toNat) % 2 ^ 64) ::
          (read_loop env root
            { client with buffer := client.buffer ++ r.bytes,
                          len := (client.len + r.count.toNat) % 2 ^ 64 } rest).effects } := by
  simp only [read_loop, hc, ht, if_true, if_false, Bool.false_eq_true]

/-- One iteration of the read loop that stores bytes and finds the terminator. -/
theorem read_loop_handled (env : Env) (root : List Char) (client : Client)
    (r : ReadResult) (rest : List ReadResult) (hc : r.count > 0)
    (ht : (strstr (cstr (client.buffer ++ r.bytes)) "\r\n\r\n".toList).isSome = true) :
    read_loop env root client (r :: rest) =
      { effects := Effect.read client.fd client.len (read_size client.len) r.count ::
          Effect.store_nul ((client.len + r.count.toNat) % 2 ^ 64) ::
          (until_sigpipe env.sigpipe (handle_request env
            { client with buffer := client.buffer ++ r.bytes,
                          len := (client.len + r.count.toNat) % 2 ^ 64 } root).1).1,
        client := (handle_request env
            { client with buffer := client.buffer ++ r.bytes,
                          len := (client.len + r.count.toNat) % 2 ^ 64 } root).2,
        done := true, count := r.count, errno_eagain := false,
        killed := (until_sigpipe env.sigpipe (handle_request env
            { client with buffer := client.buffer ++ r.bytes,
                          len := (client.len + r.count.toNat) % 2 ^ 64 } root).1).2 } := by
  simp only [read_loop, hc, ht, if_true]

/-- The `read` call that ends the read loop with a count that is not positive. -/
theorem read_loop_stop (env : Env) (root : List Char) (client : Client)
    (r : ReadResult) (rest : List ReadResult) (hc : ¬ r.count > 0) :
    read_loop env root client (r :: rest) =
      { effects := [Effect.read client.fd client.len (read_size client.len) r.count],
        client := client, done := false, count := r.count,
        errno_eagain := decide (r = ReadResult.eagain), killed := false } := by
  simp only [read_loop, hc, if_false]

/-- The read loop keeps `len` at most 8191 when every `read` returns at most what was
requested. -/
theorem read_loop_in_bounds (env : Env) (root : List Char) :
    ∀ (reads : List ReadResult) (client : Client), client.len ≤ 8191 →
      (∀ e ∈ (read_loop env root client reads).effects, e.read_within = true) →
      (∀ e ∈ (read_loop env root client reads).effects, e.in_bounds = true) ∧
      (read_loop env root client reads).client.len ≤ 8191 := by
  intro reads
  induction reads with
  | nil =>
    intro client hlen _
    simp only [read_loop, List.mem_singleton, forall_eq]
    exact ⟨in_bounds_read _ _ _ hlen, hlen⟩
  | cons r rest ih =>
    intro client hlen hw
    by_cases hc : r.count > 0
    · have hfirst : (Effect.read client.fd client.len (read_size client.len) r.count).read_within
          = true := by
        apply hw
        by_cases ht : (strstr (cstr (client.buffer ++ r.bytes)) "\r\n\r\n".toList).isSome = true
        · rw [read_loop_handled env root client r rest hc ht]
          exact List.mem_cons_self _ _
        · rw [read_loop_continue env root client r rest hc ht]
          exact List.mem_cons_self _ _
      simp only [Effect.read_within, read_size_eq client.len hlen, decide_eq_true_eq] at hfirst
      have hnew : (client.len + r.count.toNat) % 2 ^ 64 ≤ 8191 := by
        have : client.len + r.count.toNat ≤ 8191 := by omega
        have h2 : (client.len + r.count.toNat) % 2 ^ 64 ≤ client.len + r.count.toNat :=
          Nat.mod_le _ _
        omega
      have hstore : (Effect.store_nul ((client.len + r.count.toNat) % 2 ^ 64)).in_bounds
          = true := by
        simpa [Effect.in_bounds, BUFFER_SIZE] using Nat.lt_succ_of_le hnew
      by_cases ht : (strstr (cstr (client.buffer ++ r.bytes)) "\r\n\r\n".toList).isSome = true
      · rw [read_loop_handled env root client r rest hc ht]
        refine ⟨?_, ?_⟩
        · intro e he
          simp only [List.mem_cons] at he
          rcases he with rfl | rfl | he
          · exact in_bounds_read _ _ _ hlen
          · exact hstore
          · exact in_bounds_until_sigpipe env _ root e he
        · simp only [handle_request_client]
          exact hnew
      · rw [read_loop_continue env root client r rest hc ht] at hw ⊢
        have hrest : ∀ e ∈ (read_loop env root
            { client with buffer := client.buffer ++ r.bytes,
                          len := (client.len + r.count.toNat) % 2 ^ 64 } rest).effects,
            e.read_within = true :=
          fun e he => hw e (List.mem_cons_of_mem _ (List.mem_cons_of_mem _ he))
        obtain ⟨ih1, ih2⟩ := ih _ hnew hrest
        refine ⟨?_, ih2⟩
        intro e he
        simp only [List.mem_cons] at he
        rcases he with rfl | rfl | he
        · exact in_bounds_read _ _ _ hlen
        · exact hstore
        · exact ih1 e he
    · rw [read_loop_stop env root client r rest hc]
      simp only [List.mem_singleton, forall_eq]
      exact ⟨in_bounds_read _ _ _ hlen, hlen⟩

/-- The branch of `service_event` for an event with `EPOLLIN`. -/
theorem service_event_in (env : Env) (root : List Char) (client : Client) (events : Nat)
    (reads : List ReadResult) (hin : events &&& EPOLLIN ≠ 0) :
    service_event env root client events reads =
      if (read_loop env root client reads).killed = true then
        ((read_loop env root client reads).effects, none)
      else if ((read_loop env root client reads).done ||
            ((read_loop env root client reads).count == 0 ||
              ((read_loop env root client reads).count == -1 &&
                !(read_loop env root client reads).errno_eagain))) = true ∨
          events &&& (EPOLLERR ||| EPOLLHUP) ≠ 0 then
        ((read_loop env root client reads).effects ++
          teardown (read_loop env root client reads).client, none)
      else
        ((read_loop env root client reads).effects,
          some (read_loop env root client reads).client) := by
  simp only [service_event, hin, ne_eq, not_false_eq_true, if_true]

/-- One readiness event keeps `len` at most 8191. -/
theorem service_event_in_bounds (env : Env) (root : List Char) (client : Client)
    (events : Nat) (reads : List ReadResult) (hlen : client.len ≤ 8191)
    (hw : ∀ e ∈ (service_event env root client events reads).1, e.read_within = true) :
    (∀ e ∈ (service_event env root client events reads).1, e.in_bounds = true) ∧
    (∀ c, (service_event env root client events reads).2 = some c → c.len ≤ 8191) := by
  by_cases hin : events &&& EPOLLIN ≠ 0
  · rw [service_event_in env root client events reads hin] at hw ⊢
    by_cases hk : (read_loop env root client reads).killed = true
    · rw [if_pos hk] at hw ⊢
      obtain ⟨h1, _⟩ := read_loop_in_bounds env root reads client hlen hw
      exact ⟨h1, fun c hc => Option.noConfusion hc⟩
    · rw [if_neg hk] at hw ⊢
      split at hw
      · rename_i hdone
        rw [if_pos hdone]
        have hw1 : ∀ e ∈ (read_loop env root client reads).effects, e.read_within = true :=
          fun e he => hw e (List.mem_append_left _ he)
        obtain ⟨h1, _⟩ := read_loop_in_bounds env root reads client hlen hw1
        refine ⟨?_, fun c hc => Option.noConfusion hc⟩
        intro e he
        rcases List.mem_append.mp he with he | he
        · exact h1 e he
        · exact in_bounds_teardown _ e he
      · rename_i hdone
        rw [if_neg hdone]
        obtain ⟨h1, h2⟩ := read_loop_in_bounds env root reads client hlen hw
        refine ⟨h1, ?_⟩
        intro c hc
        injection hc with hc
        rw [← hc]
        exact h2
  · unfold service_event
    simp only [hin, if_false]
    split
    · exact ⟨in_bounds_teardown _, fun c hc => Option.noConfusion hc⟩
    · refine ⟨fun e he => absurd he (List.not_mem_nil e), ?_⟩
      intro c hc
      injection hc with hc
      rw [← hc]
      exact hlen

/-- Every sequence of readiness events keeps `len` at most 8191. -/
theorem serve_events_in_bounds (env : Env) (root : List Char) :
    ∀ (events : List (Nat × List ReadResult)) (client : Client), client.len ≤ 8191 →
      (∀ e ∈ (serve_events env root client events).1, e.read_within = true) →
      (∀ e ∈ (serve_events env root client events).1, e.in_bounds = true) ∧
      (∀ c, (serve_events env root client events).2 = some c → c.len ≤ 8191) := by
  intro events
  induction events with
  | nil =>
    intro client hlen _
    refine ⟨fun e he => absurd he (List.not_mem_nil e), ?_⟩
    intro c hc
    simp only [serve_events, Option.some.injEq] at hc
    rw [← hc]
    exact hlen
  | cons ev rest ih =>
    intro client hlen hw
    obtain ⟨events, reads⟩ := ev
    cases hs : service_event env root client events reads with
    | mk effects result =>
      cases result with
      | none =>
        simp only [serve_events, hs] at hw ⊢
        have := service_event_in_bounds env root client events reads hlen (by rw [hs]; exact hw)
        rw [hs] at this
        exact ⟨this.1, fun c hc => Option.noConfusion hc⟩
      | some client1 =>
        simp only [serve_events, hs] at hw ⊢
        have h1 := service_event_in_bounds env root client events reads hlen
          (by rw [hs]; exact fun e he => hw e (List.mem_append_left _ he))
        rw [hs] at h1
        have hlen1 : client1.len ≤ 8191 := h1.2 client1 rfl
        obtain ⟨h2, h3⟩ := ih client1 hlen1 (fun e he => hw e (List.mem_append_right _ he))
        refine ⟨?_, h3⟩
        intro e he
        rcases List.mem_append.mp he with he | he
        · exact h1.1 e he
        · exact h2 e he

/-- A `read` that stores a non-empty chunk returns a positive count. -/
theorem read_loop_quiet (env : Env) (root : List Char) :
    ∀ (ds : List (List Char)) (client : Client) (tail : List ReadResult),
      (∀ d ∈ ds, d ≠ []) → chunks_quiet client.buffer ds →
      ∃ pre c1,
        read_loop env root client (ds.map ReadResult.data ++ tail) =
          { read_loop env root c1 tail with
            effects := pre ++ (read_loop env root c1 tail).effects } ∧
        c1.fd = client.fd ∧ c1.buffer = client.buffer ++ ds.flatten ∧
        c1.state = client.state ∧ c1.pos = client.pos ∧
        (∀ e ∈ pre, e.is_buffer_access = true) := by
  intro ds
  induction ds with
  | nil =>
    intro client tail _ _
    exact ⟨[], client, rfl, rfl, by simp, rfl, rfl, fun e he => absurd he (List.not_mem_nil e)⟩
  | cons d ds ih =>
    intro client tail hne hq
    have hd : d ≠ [] := hne d (List.mem_cons_self _ _)
    have hc : (ReadResult.data d).count > 0 := data_count_pos d hd
    have h1 : ¬ (strstr (cstr (client.buffer ++ d)) "\r\n\r\n".toList).isSome = true := by
      intro h
      have := hq 1 (by decide) (by simp)
      simp only [List.take_succ_cons, List.take_zero, List.flatten_cons, List.flatten_nil,
        List.append_nil] at this
      exact this ((strstr_isSome_iff _ _).mp h)
    have hq1 : chunks_quiet (client.buffer ++ d) ds := by
      intro k hk hkl
      have := hq (k + 1) (Nat.succ_pos k) (by simp; omega)
      simpa only [List.take_succ_cons, List.flatten_cons, List.append_assoc] using this
    obtain ⟨pre, c1, heq, hfd, hbuf, hst, hpos, hpre⟩ :=
      ih { client with buffer := client.buffer ++ d,
                       len := (client.len + (ReadResult.data d).count.toNat) % 2 ^ 64 }
        tail (fun x hx => hne x (List.mem_cons_of_mem _ hx)) hq1
    refine ⟨Effect.read client.fd client.len (read_size client.len) (ReadResult.data d).count ::
      Effect.store_nul ((client.len + (ReadResult.data d).count.toNat) % 2 ^ 64) :: pre,
      c1, ?_, hfd, ?_, hst, hpos, ?_⟩
    · rw [List.map_cons, List.cons_append,
        read_loop_continue env root client (ReadResult.data d) _ hc h1]
      simp only [ReadResult.bytes]
      rw [heq]
      rfl
    · rw [hbuf]; simp
    · intro e he
      simp only [List.mem_cons] at he
      rcases he with rfl | rfl | he
      · rfl
      · rfl
      · exact hpre e he

/-- The four calls of the teardown block. -/
theorem teardown_eq (c : Client) :
    teardown c =
      [Effect.epoll_del c.fd, Effect.close c.fd, Effect.free_buffer, Effect.free_client] :=
  rfl

/-- The read loop makes buffer accesses and calls of `handle_request` only, possibly
ended by the termination of the process, and keeps the socket. -/
theorem read_loop_shape (env : Env) (root : List Char) :
    ∀ (reads : List ReadResult) (client : Client),
      (∀ e ∈ (read_loop env root client reads).effects,
        e.is_buffer_access = true ∨ e.in_request = true ∨ e = Effect.sigpipe) ∧
      (read_loop env root client reads).client.fd = client.fd ∧
      ((read_loop env root client reads).killed = true →
        Effect.sigpipe ∈ (read_loop env root client reads).effects) := by
  intro reads
  induction reads with
  | nil =>
    intro client
    refine ⟨?_, rfl, fun h => Bool.noConfusion h⟩
    intro e he
    simp only [read_loop, List.mem_singleton] at he
    subst he
    exact Or.inl rfl
  | cons r rest ih =>
    intro client
    by_cases hc : r.count > 0
    · by_cases ht : (strstr (cstr (client.buffer ++ r.bytes)) "\r\n\r\n".toList).isSome = true
      · rw [read_loop_handled env root client r rest hc ht]
        refine ⟨?_, ?_, ?_⟩
        · intro e he
          simp only [List.mem_cons] at he
          rcases he with rfl | rfl | he
          · exact Or.inl rfl
          · exact Or.inl rfl
          · rcases until_sigpipe_mem _ _ e he with h | h
            · exact Or.inr (Or.inl (handle_request_in_request _ _ _ e h))
            · exact Or.inr (Or.inr h)
        · simp only [handle_request_client]
        · intro hk
          exact List.mem_cons_of_mem _ (List.mem_cons_of_mem _ (until_sigpipe_killed _ _ hk))
      · rw [read_loop_continue env root client r rest hc ht]
        obtain ⟨h1, h2, h3⟩ := ih { client with buffer := client.buffer ++ r.bytes,
                                                len := (client.len + r.count.toNat) % 2 ^ 64 }
        refine ⟨?_, h2, ?_⟩
        · intro e he
          simp only [List.mem_cons] at he
          rcases he with rfl | rfl | he
          · exact Or.inl rfl
          · exact Or.inl rfl
          · exact h1 e he
        · intro hk
          exact List.mem_cons_of_mem _ (List.mem_cons_of_mem _ (h3 hk))
    · rw [read_loop_stop env root client r rest hc]
      refine ⟨?_, rfl, fun h => Bool.noConfusion h⟩
      intro e he
      simp only [List.mem_singleton] at he
      subst he
      exact Or.inl rfl

/-! ## Claim C1 -/

/-- C1, counterexample: a GET for a target of 513 bytes whose only `../` starts at byte
510 is not answered 403. The scan keeps the first 511 bytes of the target, which end in
`..`, and `stat` is called on the path built from them. -/
theorem traversal_beyond_511_not_403 :
    "../".toList <:+: long_target ∧
    tokens (cstr long_target_request) = ["GET".toList, long_target, "HTTP/1.1".toList] ∧
    ¬ responds 5 (handle_request env_no_file (client_with 5 long_target_request)
        "public".toList).1 "403 Forbidden".toList ∧
    Effect.stat ("public/".toList ++ List.replicate 508 'a' ++ "..".toList) ∈
      (handle_request env_no_file (client_with 5 long_target_request) "public".toList).1 := by
  decide!

/-- C1, amended: for every root and every GET request whose target holds `../`, is at
most 511 bytes long and fits with the root in 1023 bytes, `handle_request` sends the 403
Forbidden response and makes no `stat`, `open` or `sendfile` call. -/
theorem handle_request_traversal (env : Env) (client : Client) (root : List Char)
    (t p : List Char) (rest : List (List Char))
    (htok : tokens (cstr client.buffer) = "GET".toList :: t :: p :: rest)
    (ht : t.length ≤ 511) (hfit : root.length + t.length ≤ 1023)
    (hdots : "../".toList <:+: t) :
    (handle_request env client root).1 =
      send_response client.fd env.date "403 Forbidden".toList "text/plain".toList
        "Forbidden".toList 9 ∧
    responds client.fd (handle_request env client root).1 "403 Forbidden".toList ∧
    (∀ e ∈ (handle_request env client root).1, e.touches_fs = false) := by
  obtain ⟨h3, hm, hp, _⟩ := sscanf_request_tokens client.buffer _ t p rest htok
  have hm' : (sscanf_request client.buffer).method = "GET".toList := by rw [hm]; decide
  have hp' : (sscanf_request client.buffer).path = t := by
    rw [hp (by decide), List.take_of_length_le ht]
  have hne : t ≠ "/".toList := by
    intro e
    have := hdots.length_le
    rw [e] at this
    exact absurd this (by decide)
  have hres : resolve_path root (sscanf_request client.buffer).path = root ++ t := by
    rw [hp']
    simp only [resolve_path, hne, if_false, snprintf]
    exact List.take_of_length_le (by simp only [List.length_append]; omega)
  have hin : "../".toList <:+: resolve_path root (sscanf_request client.buffer).path := by
    rw [hres]
    exact hdots.trans (List.infix_append' root t [] |> fun h => by simpa using h)
  rw [handle_request_get env client root h3 hm' hin]
  dsimp only
  refine ⟨rfl, ?_, send_response_no_fs _ _ _ _ _ _⟩
  exact responds_send_response client.fd env.date "403 Forbidden".toList _ _ _ (by decide)

/-- C1, amended, at the request `GET /../etc/passwd HTTP/1.1` with root `public`. -/
theorem handle_request_traversal_witness :
    "../".toList <:+: "/../etc/passwd".toList ∧
    responds 5 (handle_request env_no_file
      (client_with 5 "GET /../etc/passwd HTTP/1.1\r\n\r\n".toList) "public".toList).1
      "403 Forbidden".toList :=
  ⟨by decide,
   (handle_request_traversal env_no_file
      (client_with 5 "GET /../etc/passwd HTTP/1.1\r\n\r\n".toList) "public".toList
      "/../etc/passwd".toList "HTTP/1.1".toList [] (by decide) (by decide) (by decide)
      (by decide)).2.1⟩

/-! ## Claim C2 -/

/-- C2, counterexample: the request line `GET /` holds two tokens, yet with the header
line `Host: x` after it the scan takes `Host:` as third token and the request is
answered 404, not 400. -/
theorem request_line_two_tokens_not_400 :
    (tokens (request_line "GET /\r\nHost: x\r\n\r\n".toList)).length < 3 ∧
    ¬ responds 5 (handle_request env_no_file
        (client_with 5 "GET /\r\nHost: x\r\n\r\n".toList) "public".toList).1
        "400 Bad Request".toList ∧
    responds 5 (handle_request env_no_file
        (client_with 5 "GET /\r\nHost: x\r\n\r\n".toList) "public".toList).1
        "404 Not Found".toList := by
  decide

/-- C2, amended: for every buffer whose whole text (request line and header lines, up to
the first NUL) holds fewer than three white-space-delimited tokens, the first at most 15
and the second at most 511 bytes long, `handle_request` sends the 400 Bad Request
response. -/
theorem handle_request_few_tokens (env : Env) (client : Client) (root : List Char)
    (hlen : (tokens (cstr client.buffer)).length < 3)
    (h0 : ∀ t, (tokens (cstr client.buffer))[0]? = some t → t.length ≤ 15)
    (h1 : ∀ t, (tokens (cstr client.buffer))[1]? = some t → t.length ≤ 511) :
    (handle_request env client root).1 =
      send_response client.fd env.date "400 Bad Request".toList "text/plain".toList
        "Bad Request".toList 11 ∧
    responds client.fd (handle_request env client root).1 "400 Bad Request".toList := by
  rw [handle_request_bad env client root (sscanf_request_few _ hlen h0 h1)]
  dsimp only
  exact ⟨rfl, responds_send_response client.fd env.date "400 Bad Request".toList _ _ _
    (by decide)⟩

/-- C2, amended, at the buffer `GET /` followed by an empty line. -/
theorem handle_request_few_tokens_witness :
    (tokens (cstr "GET /\r\n\r\n".toList)).length < 3 ∧
    responds 5 (handle_request env_no_file (client_with 5 "GET /\r\n\r\n".toList)
      "public".toList).1 "400 Bad Request".toList :=
  ⟨by decide,
   (handle_request_few_tokens env_no_file (client_with 5 "GET /\r\n\r\n".toList)
      "public".toList (by decide) (by decide) (by decide)).2⟩

/-! ## Claim C3 -/

/-- C3, counterexample: a GET for `/` whose protocol token has 19 bytes is not answered
400. The scan returns 3 with the protocol cut to 15 bytes and the request is handled as
a GET for `/` (404 here, no file existing). -/
theorem oversized_protocol_not_400 :
    tokens (cstr "GET / HTTP/1.1+0123456789\r\n\r\n".toList) =
      ["GET".toList, "/".toList, "HTTP/1.1+0123456789".toList] ∧
    15 < "HTTP/1.1+0123456789".toList.length ∧
    sscanf_request "GET / HTTP/1.1+0123456789\r\n\r\n".toList =
      { ret := 3, method := "GET".toList, path := "/".toList,
        protocol := "HTTP/1.1+012345".toList } ∧
    ¬ responds 5 (handle_request env_no_file
        (client_with 5 "GET / HTTP/1.1+0123456789\r\n\r\n".toList) "public".toList).1
        "400 Bad Request".toList ∧
    (handle_request env_no_file
        (client_with 5 "GET / HTTP/1.1+0123456789\r\n\r\n".toList) "public".toList).1 =
      Effect.stat "public/index.html".toList ::
        send_response 5 env_no_file.date "404 Not Found".toList "text/html".toList
          "<h1>404 Not Found</h1>".toList 22 := by
  decide

/-- C3, amended: for every buffer of three or more white-space-delimited tokens the scan
returns 3 whatever their lengths, and `handle_request` does not answer 400: it proceeds
with the tokens as cut. The method is the first 15 bytes of the first token, and a first
token other than `GET`, so any longer than 15 bytes, is answered 405. With a first token
of at most 15 bytes the path is the first 511 bytes of the second token, and with the
second token of at most 511 bytes too the protocol is the first 15 bytes of the third.
For the method `GET` the request is handled for the first 511 bytes of the target: 403
if the path built from them holds `../`, and otherwise 404, 403, 500 or 200 by the
answers of `stat` and `open` for that path, with exactly the calls of an untruncated
request. -/
theorem handle_request_oversized_tokens (env : Env) (client : Client) (root : List Char)
    (m t p : List Char) (rest : List (List Char))
    (htok : tokens (cstr client.buffer) = m :: t :: p :: rest) :
    (sscanf_request client.buffer).ret = 3 ∧
    (sscanf_request client.buffer).method = m.take 15 ∧
    (m.length ≤ 15 → (sscanf_request client.buffer).path = t.take 511) ∧
    (m.length ≤ 15 → t.length ≤ 511 →
      (sscanf_request client.buffer).protocol = p.take 15) ∧
    ¬ responds client.fd (handle_request env client root).1 "400 Bad Request".toList ∧
    (m ≠ "GET".toList →
      (handle_request env client root).1 =
        send_response client.fd env.date "405 Method Not Allowed".toList
          "text/plain".toList "Method Not Allowed".toList 19) ∧
    (m = "GET".toList →
      ("../".toList <:+: resolve_path root (t.take 511) →
        (handle_request env client root).1 =
          send_response client.fd env.date "403 Forbidden".toList "text/plain".toList
            "Forbidden".toList 9) ∧
      (¬ "../".toList <:+: resolve_path root (t.take 511) →
        (env.stat (resolve_path root (t.take 511)) = none →
          (handle_request env client root).1 =
            Effect.stat (resolve_path root (t.take 511)) ::
              send_response client.fd env.date "404 Not Found".toList "text/html".toList
                "<h1>404 Not Found</h1>".toList "<h1>404 Not Found</h1>".toList.length) ∧
        (∀ st, env.stat (resolve_path root (t.take 511)) = some st → st.is_dir = true →
          (handle_request env client root).1 =
            Effect.stat (resolve_path root (t.take 511)) ::
              send_response client.fd env.date "403 Forbidden".toList "text/html".toList
                "<h1>Directory listing not supported</h1>".toList
                "<h1>Directory listing not supported</h1>".toList.length) ∧
        (∀ st, env.stat (resolve_path root (t.take 511)) = some st → st.is_dir = false →
          env.open_rdonly (resolve_path root (t.take 511)) = none →
          (handle_request env client root).1 =
            Effect.stat (resolve_path root (t.take 511)) ::
              Effect.open_rdonly (resolve_path root (t.take 511)) ::
              send_response client.fd env.date "500 Internal Server Error".toList
                "text/html".toList "<h1>500 Internal Server Error</h1>".toList
                "<h1>500 Internal Server Error</h1>".toList.length) ∧
        (∀ st file_fd, env.stat (resolve_path root (t.take 511)) = some st →
          st.is_dir = false →
          env.open_rdonly (resolve_path root (t.take 511)) = some file_fd →
          (handle_request env client root).1 =
            Effect.stat (resolve_path root (t.take 511)) ::
              Effect.open_rdonly (resolve_path root (t.take 511)) ::
              Effect.send client.fd
                (ok_header env.date (get_mime_type (resolve_path root (t.take 511)))
                  st.st_size) ::
              (sendfile_loop client.fd file_fd st.st_size 0 env.sendfile ++
                [Effect.close file_fd])))) := by
  obtain ⟨h3, hm, hp, hq⟩ := sscanf_request_tokens client.buffer m t p rest htok
  refine ⟨h3, hm, hp, hq, handle_request_not_400 env client root h3, ?_, ?_⟩
  · intro hne
    have hne1 : (sscanf_request client.buffer).method ≠ "GET".toList := by
      rw [hm]
      intro e
      by_cases hl : m.length ≤ 15
      · rw [List.take_of_length_le hl] at e
        exact hne e
      · have hlen := congrArg List.length e
        rw [List.length_take] at hlen
        have e3 : "GET".toList.length = 3 := by decide
        rw [e3] at hlen
        omega
    rw [handle_request_method env client root h3 hne1]
  · intro hget
    have hl : m.length ≤ 15 := by rw [hget]; decide
    have hm1 : (sscanf_request client.buffer).method = "GET".toList := by
      rw [hm, List.take_of_length_le hl, hget]
    exact handle_request_get_cases env client root h3 hm1 _ (by rw [hp hl])

/-- C3, amended, at a GET for a target of 513 bytes: `stat` is called on the root
followed by the first 511 bytes of the target, and the response is 404, no file
existing. -/
theorem handle_request_oversized_tokens_witness :
    511 < long_target.length ∧
    (handle_request env_no_file (client_with 5 long_target_request) "public".toList).1 =
      Effect.stat ("public/".toList ++ List.replicate 508 'a' ++ "..".toList) ::
        send_response 5 env_no_file.date "404 Not Found".toList "text/html".toList
          "<h1>404 Not Found</h1>".toList 22 :=
  ⟨by decide!,
   (((handle_request_oversized_tokens env_no_file (client_with 5 long_target_request)
      "public".toList "GET".toList long_target "HTTP/1.1".toList []
      (by decide!)).2.2.2.2.2.2 rfl).2 (by decide!)).1 rfl |>.trans (by decide!)⟩

/-! ## Claim C4 -/

/-- C4: for every request from which `sscanf` extracts three tokens and whose method is
not exactly `GET`, `handle_request` sends the 405 Method Not Allowed response, whatever
the target, makes no `stat`, `open` or `sendfile` call, and leaves the client in state
2. -/
theorem handle_request_method_not_allowed (env : Env) (client : Client) (root : List Char)
    (h3 : (sscanf_request client.buffer).ret = 3)
    (hm : (sscanf_request client.buffer).method ≠ "GET".toList) :
    (handle_request env client root).1 =
      send_response client.fd env.date "405 Method Not Allowed".toList "text/plain".toList
        "Method Not Allowed".toList 19 ∧
    responds client.fd (handle_request env client root).1 "405 Method Not Allowed".toList ∧
    (∀ e ∈ (handle_request env client root).1, e.touches_fs = false) ∧
    (handle_request env client root).2.state = 2 := by
  rw [handle_request_method env client root h3 hm]
  dsimp only
  refine ⟨rfl, ?_, ?_, rfl⟩
  · exact responds_send_response client.fd env.date "405 Method Not Allowed".toList _ _ _
      (by decide)
  · exact send_response_no_fs _ _ _ _ _ _

/-- C4 at the request `POST /../etc/passwd HTTP/1.1`. -/
theorem handle_request_method_not_allowed_witness :
    (sscanf_request "POST /../etc/passwd HTTP/1.1\r\n\r\n".toList).ret = 3 ∧
    responds 5 (handle_request env_no_file
      (client_with 5 "POST /../etc/passwd HTTP/1.1\r\n\r\n".toList) "public".toList).1
      "405 Method Not Allowed".toList :=
  ⟨by decide,
   (handle_request_method_not_allowed env_no_file
      (client_with 5 "POST /../etc/passwd HTTP/1.1\r\n\r\n".toList) "public".toList
      (by decide) (by decide)).2.1⟩

/-! ## Claim C5 -/

/-- C5: for every path, `get_mime_type` returns the table entry for the text after the
final dot of the path (html, css, js, png, jpg, jpeg, gif, txt, compared
case-sensitively, and `application/octet-stream` for any other text after the final dot,
such as an upper-case extension or one that runs on into a later path component), and
`application/octet-stream` for a path without a dot. -/
theorem get_mime_type_table (path : List Char) :
    (∀ pre suf : List Char, path = pre ++ '.' :: suf → '.' ∉ suf →
        get_mime_type path = mime_of_extension suf) ∧
    ('.' ∉ path → get_mime_type path = "application/octet-stream".toList) := by
  constructor
  · intro pre suf hp hs
    subst hp
    have h := strrchr_last '.' suf hs pre
    simp only [get_mime_type, h, mime_of_extension]
    have e1 : ".html".toList = '.' :: "html".toList := rfl
    have e2 : ".css".toList = '.' :: "css".toList := rfl
    have e3 : ".js".toList = '.' :: "js".toList := rfl
    have e4 : ".png".toList = '.' :: "png".toList := rfl
    have e5 : ".jpg".toList = '.' :: "jpg".toList := rfl
    have e6 : ".jpeg".toList = '.' :: "jpeg".toList := rfl
    have e7 : ".gif".toList = '.' :: "gif".toList := rfl
    have e8 : ".txt".toList = '.' :: "txt".toList := rfl
    rw [e1, e2, e3, e4, e5, e6, e7, e8]
    simp only [List.cons.injEq, true_and]
    by_cases h5 : suf = "jpg".toList
    · subst h5; decide
    · simp only [h5, false_or, if_false]
  · intro h
    simp [get_mime_type, strrchr_none_of_not_mem '.' path h]

/-- C5 at concrete paths: a `.css` file below a dotted directory, an upper-case
extension, a final dot inside a directory component, and a path without a dot. -/
theorem get_mime_type_table_witness :
    get_mime_type "public/v1.2/site.css".toList = "text/css".toList ∧
    get_mime_type "public/INDEX.HTML".toList = "application/octet-stream".toList ∧
    get_mime_type "public/a.html/readme".toList = "application/octet-stream".toList ∧
    get_mime_type "public/Makefile".toList = "application/octet-stream".toList :=
  ⟨((get_mime_type_table "public/v1.2/site.css".toList).1
      "public/v1.2/site".toList "css".toList (by decide) (by decide)).trans (by decide),
   ((get_mime_type_table "public/INDEX.HTML".toList).1
      "public/INDEX".toList "HTML".toList (by decide) (by decide)).trans (by decide),
   ((get_mime_type_table "public/a.html/readme".toList).1
      "public/a".toList "html/readme".toList (by decide) (by decide)).trans (by decide),
   (get_mime_type_table "public/Makefile".toList).2 (by decide)⟩

/-! ## Claim C6 -/

/-- C6, counterexample: with a root of 1013 bytes and the target `/`, root plus target
fits in 1023 bytes and holds no `../`, yet the resolved path is not the root followed by
`/index.html`: `snprintf` cuts it to 1023 bytes and `stat` is called on the root
followed by `/index.htm`. -/
theorem index_beyond_1023_truncated :
    tokens (cstr "GET / HTTP/1.1\r\n\r\n".toList) =
      ["GET".toList, "/".toList, "HTTP/1.1".toList] ∧
    (long_root ++ "/".toList).length ≤ 1023 ∧
    ¬ "../".toList <:+: long_root ++ "/index.html".toList ∧
    resolve_path long_root (sscanf_request "GET / HTTP/1.1\r\n\r\n".toList).path ≠
      long_root ++ "/index.html".toList ∧
    (handle_request env_no_file (client_with 5 "GET / HTTP/1.1\r\n\r\n".toList) long_root).1 =
      Effect.stat (long_root ++ "/index.htm".toList) ::
        send_response 5 env_no_file.date "404 Not Found".toList "text/html".toList
          "<h1>404 Not Found</h1>".toList 22 := by
  decide!

/-- C6, amended: for every GET request with a target of at most 511 bytes and a root
such that the resolved path (the root followed by `/index.html` for the target `/`, by
the target otherwise) fits in 1023 bytes and holds no `../`, the path built is that
resolved path, and the response is 404 when `stat` fails, 403 when it reports a
directory, 500 when it reports no directory and `open` fails, and otherwise 200 with the
header of the 200 path for the content type `get_mime_type` of the resolved path and the
size reported by `stat`, followed by the transfer loop and the close of the file. -/
theorem handle_request_resolved (env : Env) (client : Client) (root : List Char)
    (t p : List Char) (rest : List (List Char))
    (htok : tokens (cstr client.buffer) = "GET".toList :: t :: p :: rest)
    (ht : t.length ≤ 511)
    (hfit : (resolved_target root t).length ≤ 1023)
    (hno : ¬ "../".toList <:+: resolved_target root t) :
    resolve_path root (sscanf_request client.buffer).path = resolved_target root t ∧
    (env.stat (resolved_target root t) = none →
      (handle_request env client root).1 =
        Effect.stat (resolved_target root t) ::
          send_response client.fd env.date "404 Not Found".toList "text/html".toList
            "<h1>404 Not Found</h1>".toList "<h1>404 Not Found</h1>".toList.length ∧
      responds client.fd (handle_request env client root).1 "404 Not Found".toList) ∧
    (∀ st, env.stat (resolved_target root t) = some st → st.is_dir = true →
      (handle_request env client root).1 =
        Effect.stat (resolved_target root t) ::
          send_response client.fd env.date "403 Forbidden".toList "text/html".toList
            "<h1>Directory listing not supported</h1>".toList
            "<h1>Directory listing not supported</h1>".toList.length ∧
      responds client.fd (handle_request env client root).1 "403 Forbidden".toList) ∧
    (∀ st, env.stat (resolved_target root t) = some st → st.is_dir = false →
      env.open_rdonly (resolved_target root t) = none →
      (handle_request env client root).1 =
        Effect.stat (resolved_target root t) :: Effect.open_rdonly (resolved_target root t) ::
          send_response client.fd env.date "500 Internal Server Error".toList
            "text/html".toList "<h1>500 Internal Server Error</h1>".toList
            "<h1>500 Internal Server Error</h1>".toList.length ∧
      responds client.fd (handle_request env client root).1
        "500 Internal Server Error".toList) ∧
    (∀ st file_fd, env.stat (resolved_target root t) = some st → st.is_dir = false →
      env.open_rdonly (resolved_target root t) = some file_fd →
      (handle_request env client root).1 =
        Effect.stat (resolved_target root t) :: Effect.open_rdonly (resolved_target root t) ::
          Effect.send client.fd
            (ok_header env.date (get_mime_type (resolved_target root t)) st.st_size) ::
          (sendfile_loop client.fd file_fd st.st_size 0 env.sendfile ++
            [Effect.close file_fd]) ∧
      responds client.fd (handle_request env client root).1 "200 OK".toList ∧
      (∀ n : Nat, st.st_size = (n : Int) →
        (header_block "200 OK".toList env.date
          (get_mime_type (resolved_target root t)) n).length ≤ 8191 →
        ok_header env.date (get_mime_type (resolved_target root t)) st.st_size =
          header_block "200 OK".toList env.date
            (get_mime_type (resolved_target root t)) n)) := by
  obtain ⟨h3, hm, hp, _⟩ := sscanf_request_tokens client.buffer _ t p rest htok
  have hm' : (sscanf_request client.buffer).method = "GET".toList := by rw [hm]; decide
  have hp' : (sscanf_request client.buffer).path = t := by
    rw [hp (by decide), List.take_of_length_le ht]
  have hres : resolve_path root (sscanf_request client.buffer).path = resolved_target root t := by
    rw [hp']
    unfold resolved_target at hfit
    unfold resolve_path resolved_target snprintf
    by_cases h : t = "/".toList
    · rw [if_pos h] at hfit
      rw [if_pos h, if_pos h]
      exact List.take_of_length_le hfit
    · rw [if_neg h] at hfit
      rw [if_neg h, if_neg h]
      exact List.take_of_length_le hfit
  have hstr : (strstr (resolved_target root t) "../".toList).isSome = false := by
    rw [Bool.eq_false_iff]
    intro h
    exact hno ((strstr_isSome_iff _ _).mp h)
  refine ⟨hres, ?_, ?_, ?_, ?_⟩
  · intro hstat
    have e : (handle_request env client root).1 =
        Effect.stat (resolved_target root t) ::
          send_response client.fd env.date "404 Not Found".toList "text/html".toList
            "<h1>404 Not Found</h1>".toList "<h1>404 Not Found</h1>".toList.length := by
      simp only [handle_request, h3, hm', hres, hstr, hstat, ne_eq, not_true_eq_false,
        if_false, Bool.false_eq_true]
    rw [e]
    refine ⟨rfl, responds_cons _ _ _ _ (fun _ _ h => Effect.noConfusion h) ?_⟩
    exact responds_send_response client.fd env.date "404 Not Found".toList _ _ _ (by decide)
  · intro st hstat hdir
    have e : (handle_request env client root).1 =
        Effect.stat (resolved_target root t) ::
          send_response client.fd env.date "403 Forbidden".toList "text/html".toList
            "<h1>Directory listing not supported</h1>".toList
            "<h1>Directory listing not supported</h1>".toList.length := by
      simp only [handle_request, h3, hm', hres, hstr, hstat, hdir, ne_eq, not_true_eq_false,
        if_false, if_true, Bool.false_eq_true]
    rw [e]
    refine ⟨rfl, responds_cons _ _ _ _ (fun _ _ h => Effect.noConfusion h) ?_⟩
    exact responds_send_response client.fd env.date "403 Forbidden".toList _ _ _ (by decide)
  · intro st hstat hdir hopen
    have e : (handle_request env client root).1 =
        Effect.stat (resolved_target root t) :: Effect.open_rdonly (resolved_target root t) ::
          send_response client.fd env.date "500 Internal Server Error".toList
            "text/html".toList "<h1>500 Internal Server Error</h1>".toList
            "<h1>500 Internal Server Error</h1>".toList.length := by
      simp only [handle_request, h3, hm', hres, hstr, hstat, hdir, hopen, ne_eq,
        not_true_eq_false, if_false, Bool.false_eq_true]
    rw [e]
    refine ⟨rfl, responds_cons _ _ _ _ (fun _ _ h => Effect.noConfusion h)
      (responds_cons _ _ _ _ (fun _ _ h => Effect.noConfusion h) ?_)⟩
    exact responds_send_response client.fd env.date "500 Internal Server Error".toList _ _ _
      (by decide)
  · intro st file_fd hstat hdir hopen
    have e : (handle_request env client root).1 =
        Effect.stat (resolved_target root t) :: Effect.open_rdonly (resolved_target root t) ::
          Effect.send client.fd
            (ok_header env.date (get_mime_type (resolved_target root t)) st.st_size) ::
          (sendfile_loop client.fd file_fd st.st_size 0 env.sendfile ++
            [Effect.close file_fd]) := by
      simp only [handle_request, h3, hm', hres, hstr, hstat, hdir, hopen, ne_eq,
        not_true_eq_false, if_false, Bool.false_eq_true]
    rw [e]
    refine ⟨rfl, responds_cons _ _ _ _ (fun _ _ h => Effect.noConfusion h)
      (responds_cons _ _ _ _ (fun _ _ h => Effect.noConfusion h)
        (responds_ok_header _ _ _ _ _)), ?_⟩
    intro n hn hlen
    rw [hn]
    exact ok_header_eq_block env.date _ n hlen

/-- C6, amended, at the request `GET / HTTP/1.1` with root `public`, where
`public/index.html` is a file of 5 bytes. -/
theorem handle_request_resolved_witness :
    (handle_request env_index (client_with 5 "GET / HTTP/1.1\r\n\r\n".toList)
        "public".toList).1 =
      [Effect.stat "public/index.html".toList, Effect.open_rdonly "public/index.html".toList,
        Effect.send 5 "HTTP/1.1 200 OK\r\nServer: mini-webserver/0.1\r\nDate: Sun, 01 Nov 2026 05:38:00 GMT\r\nContent-Type: text/html\r\nContent-Length: 5\r\nConnection: close\r\n\r\n".toList,
        Effect.sendfile 5 7 0 5 5, Effect.close 7] :=
  ((handle_request_resolved env_index (client_with 5 "GET / HTTP/1.1\r\n\r\n".toList)
      "public".toList "/".toList "HTTP/1.1".toList [] (by decide) (by decide) (by decide!)
      (by decide)).2.2.2.2 { is_dir := false, st_size := 5 } 7 (by decide) rfl
      (by decide)).1.trans (by decide!)

/-! ## Claim C7 -/

/-- C7, failing input: for the request `POST / HTTP/1.1` the 405 response announces
`Content-Length: 19` and sends 19 body bytes, the 18 bytes of `Method Not Allowed` and
the NUL that ends the string. The lengths passed for `Bad Request` and `Forbidden` are
those of the texts. -/
theorem method_not_allowed_sends_nul (env : Env) (fd : Int) (root : List Char) :
    (handle_request env (client_with fd "POST / HTTP/1.1\r\n\r\n".toList) root).1 =
      [Effect.send fd (send_response_header "405 Method Not Allowed".toList env.date
          "text/plain".toList 19),
        Effect.send fd ("Method Not Allowed".toList ++ [NUL])] ∧
    "Method Not Allowed".toList.length = 18 ∧
    ("Method Not Allowed".toList ++ [NUL]).length = 19 ∧
    "Bad Request".toList.length = 11 ∧ "Forbidden".toList.length = 9 := by
  refine ⟨?_, by decide, by decide, by decide, by decide⟩
  have h3 : (sscanf_request (client_with fd "POST / HTTP/1.1\r\n\r\n".toList).buffer).ret = 3 := by
    show (sscanf_request "POST / HTTP/1.1\r\n\r\n".toList).ret = 3
    decide
  have hm : (sscanf_request (client_with fd "POST / HTTP/1.1\r\n\r\n".toList).buffer).method ≠
      "GET".toList := by
    show (sscanf_request "POST / HTTP/1.1\r\n\r\n".toList).method ≠ "GET".toList
    decide
  rw [handle_request_method env _ root h3 hm]
  show send_response fd env.date "405 Method Not Allowed".toList "text/plain".toList
      "Method Not Allowed".toList 19 = _
  have hb : body_bytes "Method Not Allowed".toList 19 = "Method Not Allowed".toList ++ [NUL] := by
    decide
  simp only [send_response, hb]
  rfl

/-! ## Claim C8 -/

/-- C8, counterexample: for a status of 8200 bytes the header bytes of `send_response`
are not the header block; `snprintf` keeps 8191 bytes of it. -/
theorem long_status_header_truncated :
    send_response_header (List.replicate 8200 'x') "Sun, 01 Nov 2026 05:38:00 GMT".toList
        "text/plain".toList 0 ≠
      header_block (List.replicate 8200 'x') "Sun, 01 Nov 2026 05:38:00 GMT".toList
        "text/plain".toList 0 := by
  intro e
  have hl := congrArg List.length e
  rw [send_response_header, snprintf, List.length_take, ← send_response_format_eq,
    send_response_format] at hl
  simp only [List.length_append, List.length_replicate, BUFFER_SIZE] at hl
  omega

/-- C8, amended: for every status, date, content type and body length, the header bytes
of `send_response` are the header block whenever the block is at most 8191 bytes long,
so are those of the 200 path for the status 200 OK, and the two formatters agree for the
status 200 OK and a size that is not negative. -/
theorem header_block_of_fit (status date ctype : List Char) (n : Nat) :
    ((header_block status date ctype n).length ≤ 8191 →
      send_response_header status date ctype n = header_block status date ctype n) ∧
    ((header_block "200 OK".toList date ctype n).length ≤ 8191 →
      ok_header date ctype (n : Int) = header_block "200 OK".toList date ctype n) ∧
    ok_header date ctype (n : Int) = send_response_header "200 OK".toList date ctype n := by
  exact ⟨send_response_header_eq_block status date ctype n,
    ok_header_eq_block date ctype n, ok_header_eq_send_response_header date ctype n⟩

/-- C8, amended, at the header of the 404 response. -/
theorem header_block_of_fit_witness :
    send_response_header "404 Not Found".toList "Sun, 01 Nov 2026 05:38:00 GMT".toList
        "text/html".toList 22 =
      "HTTP/1.1 404 Not Found\r\nServer: mini-webserver/0.1\r\nDate: Sun, 01 Nov 2026 05:38:00 GMT\r\nContent-Type: text/html\r\nContent-Length: 22\r\nConnection: close\r\n\r\n".toList :=
  ((header_block_of_fit "404 Not Found".toList "Sun, 01 Nov 2026 05:38:00 GMT".toList
      "text/html".toList 22).1 (by decide!)).trans (by decide!)

/-! ## Claim C9 -/

/-- C9: starting from a freshly accepted connection, over every sequence of readiness
events and `read` results in which each `read` returns at most the size requested, every
`read` is issued with `len` at most 8191 and the size `8192 - len - 1` computed without
wrapping, every NUL is stored at an index below 8192, and a connection that stays open
has `len` at most 8191. -/
theorem read_loop_invariant (env : Env) (root : List Char) (fd : Int)
    (events : List (Nat × List ReadResult))
    (hreads : ∀ e ∈ (serve_events env root (accept_client fd) events).1,
      e.read_within = true) :
    (∀ e ∈ (serve_events env root (accept_client fd) events).1, e.in_bounds = true) ∧
    (∀ c, (serve_events env root (accept_client fd) events).2 = some c → c.len ≤ 8191) :=
  serve_events_in_bounds env root events (accept_client fd) (Nat.zero_le _) hreads

/-- C9 at a request that arrives in two chunks over two readiness events. -/
theorem read_loop_invariant_witness :
    (serve_events env_no_file "public".toList (accept_client 5)
        [(EPOLLIN, [ReadResult.data "GET / HT".toList, ReadResult.eagain]),
         (EPOLLIN, [ReadResult.data "TP/1.1\r\n\r\n".toList])]).1.all Effect.read_within
      = true ∧
    (serve_events env_no_file "public".toList (accept_client 5)
        [(EPOLLIN, [ReadResult.data "GET / HT".toList, ReadResult.eagain]),
         (EPOLLIN, [ReadResult.data "TP/1.1\r\n\r\n".toList])]).1.all Effect.in_bounds
      = true :=
  ⟨by decide,
   List.all_eq_true.mpr
    (read_loop_invariant env_no_file "public".toList 5
      [(EPOLLIN, [ReadResult.data "GET / HT".toList, ReadResult.eagain]),
       (EPOLLIN, [ReadResult.data "TP/1.1\r\n\r\n".toList])] (by decide)).1⟩

/-! ## Claim C10 -/

/-- C10, counterexample, on three events with `EPOLLIN` on a fresh connection.  First,
the bytes read hold the header terminator after a NUL byte: the request is not handled
and the connection stays registered, because `strstr` stops at the NUL.  Second, the
bytes read hold the terminator and the peer has reset the connection: the request is
handled, the `send` of the response raises `SIGPIPE` and no teardown call is made.
Third, the event carries the hangup flag too and the read completes the request: the
connection is torn down, but after the 404 response was sent. -/
theorem terminator_after_nul_not_handled :
    ("\r\n\r\n".toList <:+: NUL :: "GET / HTTP/1.1\r\n\r\n".toList ∧
      service_event env_no_file "public".toList (accept_client 5) EPOLLIN
          [ReadResult.data (NUL :: "GET / HTTP/1.1\r\n\r\n".toList), ReadResult.eagain] =
        ([Effect.read 5 0 8191 19, Effect.store_nul 19, Effect.read 5 19 8172 (-1)],
          some { fd := 5, buffer := NUL :: "GET / HTTP/1.1\r\n\r\n".toList, len := 19,
                 pos := 0, state := 0 })) ∧
    ("\r\n\r\n".toList <:+: "GET / HTTP/1.1\r\n\r\n".toList ∧
      service_event env_reset "public".toList (accept_client 5) EPOLLIN
          [ReadResult.data "GET / HTTP/1.1\r\n\r\n".toList] =
        ([Effect.read 5 0 8191 18, Effect.store_nul 18,
          Effect.stat "public/index.html".toList,
          Effect.send 5 (send_response_header "404 Not Found".toList env_reset.date
            "text/html".toList 22),
          Effect.sigpipe], none)) ∧
    ((EPOLLIN ||| EPOLLHUP) &&& (EPOLLERR ||| EPOLLHUP) ≠ 0 ∧
      service_event env_no_file "public".toList (accept_client 5) (EPOLLIN ||| EPOLLHUP)
          [ReadResult.data "GET / HTTP/1.1\r\n\r\n".toList] =
        ([Effect.read 5 0 8191 18, Effect.store_nul 18,
          Effect.stat "public/index.html".toList,
          Effect.send 5 (send_response_header "404 Not Found".toList env_no_file.date
            "text/html".toList 22),
          Effect.send 5 "<h1>404 Not Found</h1>".toList,
          Effect.epoll_del 5, Effect.close 5, Effect.free_buffer, Effect.free_client],
          none)) := by
  decide

/-- C10, amended: one readiness event on a connection, after reads of non-empty chunks
`ds` that complete no terminator in the text of the buffer (its bytes before the first
NUL).  With `EPOLLIN`: when the next chunk completes the terminator in the text of the
buffer, the request is handled once on the bytes read so far, whatever the other flags,
and then the connection is torn down (`epoll_ctl` delete, `close`, the two `free`) if
every write of the response returns, while the process is terminated with no teardown
call if one of them raises `SIGPIPE`; when the next `read` returns 0 or fails with an
error other than would-block, the connection is torn down and nothing is sent; when the
next `read` would block, the connection is torn down without a response if the event
carries an error or hangup flag, and otherwise stays with its socket, state and all bytes
read, no teardown call being made.  Without `EPOLLIN` the connection is torn down if the
event carries an error or hangup flag and is left as it is otherwise.  In every case the
teardown calls are made at most once, after all other calls. -/
theorem service_event_outcomes (env : Env) (root : List Char) (client : Client)
    (events : Nat) (ds : List (List Char))
    (hne : ∀ d ∈ ds, d ≠ []) (hq : chunks_quiet client.buffer ds) :
    (∀ d rest, d ≠ [] →
      "\r\n\r\n".toList <:+: cstr (client.buffer ++ ds.flatten ++ d) →
      events &&& EPOLLIN ≠ 0 →
      ∃ pre, (∀ e ∈ pre, e.is_buffer_access = true) ∧
        ((env.sigpipe = none ∨ ∃ k, env.sigpipe = some k ∧
            ((handle_request env { client with buffer := client.buffer ++ ds.flatten ++ d }
              root).1.filter Effect.writes_socket).length ≤ k) →
          service_event env root client events
              (ds.map ReadResult.data ++ ReadResult.data d :: rest) =
            (pre ++
              (handle_request env { client with buffer := client.buffer ++ ds.flatten ++ d }
                root).1 ++
              [Effect.epoll_del client.fd, Effect.close client.fd, Effect.free_buffer,
                Effect.free_client], none)) ∧
        (∀ k, env.sigpipe = some k →
          k < ((handle_request env { client with buffer := client.buffer ++ ds.flatten ++ d }
              root).1.filter Effect.writes_socket).length →
          ∃ made,
            made <+: (handle_request env
              { client with buffer := client.buffer ++ ds.flatten ++ d } root).1 ∧
            (made.filter Effect.writes_socket).length = k + 1 ∧
            service_event env root client events
                (ds.map ReadResult.data ++ ReadResult.data d :: rest) =
              (pre ++ made ++ [Effect.sigpipe], none))) ∧
    (∀ stop rest, stop = ReadResult.data [] ∨ stop = ReadResult.error →
      events &&& EPOLLIN ≠ 0 →
      ∃ pre, (∀ e ∈ pre, e.is_buffer_access = true) ∧
        service_event env root client events (ds.map ReadResult.data ++ stop :: rest) =
          (pre ++ [Effect.epoll_del client.fd, Effect.close client.fd, Effect.free_buffer,
            Effect.free_client], none)) ∧
    (∀ tail, tail = [] ∨ (∃ rest, tail = ReadResult.eagain :: rest) →
      events &&& EPOLLIN ≠ 0 →
      ∃ pre, (∀ e ∈ pre, e.is_buffer_access = true) ∧
        (events &&& (EPOLLERR ||| EPOLLHUP) ≠ 0 →
          service_event env root client events (ds.map ReadResult.data ++ tail) =
            (pre ++ [Effect.epoll_del client.fd, Effect.close client.fd,
              Effect.free_buffer, Effect.free_client], none)) ∧
        (events &&& (EPOLLERR ||| EPOLLHUP) = 0 →
          ∃ c1, service_event env root client events (ds.map ReadResult.data ++ tail) =
              (pre, some c1) ∧
            c1.fd = client.fd ∧ c1.buffer = client.buffer ++ ds.flatten ∧
            c1.state = client.state)) ∧
    (∀ reads, events &&& EPOLLIN = 0 →
      (events &&& (EPOLLERR ||| EPOLLHUP) ≠ 0 →
        service_event env root client events reads =
          ([Effect.epoll_del client.fd, Effect.close client.fd, Effect.free_buffer,
            Effect.free_client], none)) ∧
      (events &&& (EPOLLERR ||| EPOLLHUP) = 0 →
        service_event env root client events reads = ([], some client))) ∧
    (∀ reads, ∃ body,
      (∀ e ∈ body,
        e.is_buffer_access = true ∨ e.in_request = true ∨ e = Effect.sigpipe) ∧
      ((∃ c1, service_event env root client events reads = (body, some c1)) ∨
        service_event env root client events reads =
          (body ++ [Effect.epoll_del client.fd, Effect.close client.fd, Effect.free_buffer,
            Effect.free_client], none) ∨
        (service_event env root client events reads = (body, none) ∧
          Effect.sigpipe ∈ body))) := by
  refine ⟨?_, ?_, ?_, ?_, ?_⟩
  · intro d rest hd hterm hin
    obtain ⟨pre, c1, heq, hfd, hbuf, _, _, hpre⟩ :=
      read_loop_quiet env root ds client (ReadResult.data d :: rest) hne hq
    have hc : (ReadResult.data d).count > 0 := data_count_pos d hd
    have ht : (strstr (cstr (c1.buffer ++ (ReadResult.data d).bytes))
        "\r\n\r\n".toList).isSome = true := by
      rw [hbuf]
      exact (strstr_isSome_iff _ _).mpr hterm
    rw [read_loop_handled env root c1 _ rest hc ht] at heq
    rw [handle_request_effects_congr env root _
      { client with buffer := client.buffer ++ ds.flatten ++ d }
      (by simpa using hfd) (by simp [hbuf, ReadResult.bytes])] at heq
    refine ⟨pre ++ [Effect.read c1.fd c1.len (read_size c1.len) (ReadResult.data d).count,
      Effect.store_nul ((c1.len + (ReadResult.data d).count.toNat) % 2 ^ 64)], ?_, ?_, ?_⟩
    · intro e he
      rcases List.mem_append.mp he with he | he
      · exact hpre e he
      · simp only [List.mem_cons, List.not_mem_nil, or_false] at he
        rcases he with rfl | rfl <;> rfl
    · intro hall
      have hcut : until_sigpipe env.sigpipe (handle_request env
          { client with buffer := client.buffer ++ ds.flatten ++ d } root).1 =
          ((handle_request env
            { client with buffer := client.buffer ++ ds.flatten ++ d } root).1, false) := by
        rcases hall with h | ⟨k, h, hk⟩
        · rw [h]; rfl
        · rw [h]; exact cut_at_write_all _ k hk
      rw [service_event_in env root client events _ hin, heq, hcut]
      simp only [Bool.true_or, true_or, if_true, handle_request_client, Bool.false_eq_true,
        if_false]
      rw [teardown_eq]
      simp only [hfd, List.append_assoc, List.cons_append, List.nil_append]
    · intro k hsp hk
      obtain ⟨made, hmade, hlen, hcut⟩ := cut_at_write_cut _ k hk
      refine ⟨made, hmade, hlen, ?_⟩
      have hcut1 : until_sigpipe env.sigpipe (handle_request env
          { client with buffer := client.buffer ++ ds.flatten ++ d } root).1 =
          (made ++ [Effect.sigpipe], true) := by
        rw [hsp]; exact hcut
      rw [service_event_in env root client events _ hin, heq, hcut1]
      simp only [if_true, List.append_assoc, List.cons_append, List.nil_append]
  · intro stop rest hstop hin
    obtain ⟨pre, c1, heq, hfd, _, _, _, hpre⟩ :=
      read_loop_quiet env root ds client (stop :: rest) hne hq
    have hc : ¬ stop.count > 0 := by
      rcases hstop with rfl | rfl <;> simp [ReadResult.count]
    rw [read_loop_stop env root c1 stop rest hc] at heq
    refine ⟨pre ++ [Effect.read c1.fd c1.len (read_size c1.len) stop.count], ?_, ?_⟩
    · intro e he
      rcases List.mem_append.mp he with he | he
      · exact hpre e he
      · simp only [List.mem_singleton] at he
        subst he; rfl
    · rw [service_event_in env root client events _ hin, heq]
      have hdone : (false || (stop.count == 0 || (stop.count == -1 &&
          !decide (stop = ReadResult.eagain)))) = true := by
        rcases hstop with rfl | rfl <;> decide
      simp only [hdone, true_or, if_true, Bool.false_eq_true, if_false]
      rw [teardown_eq, hfd]
  · intro tail htail hin
    obtain ⟨pre, c1, heq, hfd, hbuf, hst, _, hpre⟩ :=
      read_loop_quiet env root ds client tail hne hq
    have hloop : read_loop env root c1 tail =
        { effects := [Effect.read c1.fd c1.len (read_size c1.len) (-1)],
          client := c1, done := false, count := -1, errno_eagain := true,
          killed := false } := by
      rcases htail with rfl | ⟨rest, rfl⟩
      · rfl
      · rw [read_loop_stop env root c1 _ rest (by decide)]
        rfl
    rw [hloop] at heq
    refine ⟨pre ++ [Effect.read c1.fd c1.len (read_size c1.len) (-1)], ?_, ?_, ?_⟩
    · intro e he
      rcases List.mem_append.mp he with he | he
      · exact hpre e he
      · simp only [List.mem_singleton] at he
        subst he; rfl
    · intro herr
      rw [service_event_in env root client events _ hin, heq]
      simp only [herr, ne_eq, not_false_eq_true, or_true, if_true, Bool.false_eq_true,
        if_false]
      rw [teardown_eq, hfd]
    · intro herr
      refine ⟨c1, ?_, hfd, hbuf, hst⟩
      rw [service_event_in env root client events _ hin, heq]
      simp only [herr, ne_eq, not_true_eq_false]
      simp
  · intro reads hin
    constructor
    · intro herr
      simp only [service_event, hin, herr, ne_eq, not_true_eq_false, not_false_eq_true,
        if_true, if_false, teardown]
    · intro herr
      simp only [service_event, hin, herr, ne_eq, not_true_eq_false, if_false]
  · intro reads
    by_cases hin : events &&& EPOLLIN ≠ 0
    · obtain ⟨hshape, hfd, hkill⟩ := read_loop_shape env root reads client
      refine ⟨(read_loop env root client reads).effects, hshape, ?_⟩
      rw [service_event_in env root client events reads hin]
      by_cases hk : (read_loop env root client reads).killed = true
      · rw [if_pos hk]
        exact Or.inr (Or.inr ⟨rfl, hkill hk⟩)
      · rw [if_neg hk]
        split
        · right; left
          rw [teardown_eq, hfd]
        · left
          exact ⟨_, rfl⟩
    · refine ⟨[], fun e he => absurd he (List.not_mem_nil e), ?_⟩
      simp only [service_event, hin, if_false]
      split
      · right; left; rfl
      · left; exact ⟨_, rfl⟩

/-- C10, amended, at a request that arrives in two chunks within one readiness event,
every write returning: the two reads, the 404 response, then the four teardown calls. -/
theorem service_event_outcomes_witness :
    (∃ pre, (∀ e ∈ pre, e.is_buffer_access = true) ∧
      service_event env_no_file "public".toList (accept_client 5) EPOLLIN
          [ReadResult.data "GET / HT".toList, ReadResult.data "TP/1.1\r\n\r\n".toList] =
        (pre ++ (handle_request env_no_file
            (client_with 5 "GET / HTTP/1.1\r\n\r\n".toList) "public".toList).1 ++
          [Effect.epoll_del 5, Effect.close 5, Effect.free_buffer, Effect.free_client],
          none)) ∧
    service_event env_no_file "public".toList (accept_client 5) EPOLLIN
        [ReadResult.data "GET / HT".toList, ReadResult.data "TP/1.1\r\n\r\n".toList] =
      ([Effect.read 5 0 8191 8, Effect.store_nul 8, Effect.read 5 8 8183 10,
        Effect.store_nul 18, Effect.stat "public/index.html".toList,
        Effect.send 5 (send_response_header "404 Not Found".toList env_no_file.date
          "text/html".toList 22),
        Effect.send 5 "<h1>404 Not Found</h1>".toList,
        Effect.epoll_del 5, Effect.close 5, Effect.free_buffer, Effect.free_client],
        none) :=
  ⟨match (service_event_outcomes env_no_file "public".toList (accept_client 5) EPOLLIN
      ["GET / HT".toList] (by decide)
      (fun k hk hkl => by
        have hk1 : k = 1 := Nat.le_antisymm hkl hk
        subst hk1
        decide)).1 "TP/1.1\r\n\r\n".toList [] (by decide) (by decide) (by decide) with
    | ⟨pre, hpre, hall, _⟩ => ⟨pre, hpre, hall (Or.inl rfl)⟩,
   by decide⟩

end MiniWebserver
